import Mathlib

/-!
Verification development for the UA_and_FedReg_Compiler repository.

The Python sources are shallowly embedded:
* `reginfo_patch.py` (tri-state booleans, partial dates, clean text),
* `UA_Parser_For_Single_xml_9_12_25.py` (single-XML flattener),
* `UA_COMPILER_8_21_25.py` (streaming compiler and the `build_last` reducer),
* `Runs_UA_Compiler.py` (directory runner with the EO_13771 backfill).

XML trees are modelled by a simple inductive (`XNode`); pandas dataframe rows
are modelled as functions from column names to `Option String`, where `none`
plays the role of a NaN cell.  Python's stable ascending `sorted` is modelled
by Mathlib's `List.insertionSort` with a reflexive total comparator (equal keys
keep their original order, exactly as in CPython).  External library functions
that the sources call (`html.unescape`, `dateutil`'s fuzzy parser) are taken as
parameters of the embedding, so every theorem quantifies over their behaviour.
-/

namespace UA

/-! ### Character and string helpers (Python semantics, ASCII range) -/

/-- ASCII whitespace, as recognised by Python `str.strip` and regex `\s`
on ASCII input. -/
def isWsC (c : Char) : Bool :=
  c = ' ' || c = '\t' || c = '\n' || c = '\r' || c = '\x0b' || c = '\x0c'

/-- Drop a leading whitespace run. -/
def dropWs : List Char → List Char
  | [] => []
  | c :: cs => if isWsC c then dropWs cs else c :: cs

/-- Strip whitespace from both ends. -/
def stripChars (l : List Char) : List Char :=
  (dropWs ((dropWs l).reverse)).reverse

/-- Python `str.strip()` (ASCII whitespace). -/
def pyStrip (s : String) : String := ⟨stripChars s.data⟩

/-- Lower-case one ASCII letter (Python `str.lower` restricted to ASCII). -/
def lowerC (c : Char) : Char :=
  if 'A' ≤ c ∧ c ≤ 'Z' then Char.ofNat (c.toNat + 32) else c

/-- Upper-case one ASCII letter (Python `str.upper` restricted to ASCII). -/
def upperC (c : Char) : Char :=
  if 'a' ≤ c ∧ c ≤ 'z' then Char.ofNat (c.toNat - 32) else c

/-- Python `str.lower()` (ASCII). -/
def pyLower (s : String) : String := ⟨s.data.map lowerC⟩

/-- Python `str.upper()` (ASCII). -/
def pyUpper (s : String) : String := ⟨s.data.map upperC⟩

/-- Numeric value of an ASCII digit. -/
def digitVal (c : Char) : Nat := c.toNat - 48

/-- Python `int()` applied to a non-empty all-digit string. -/
def natOfDigits (l : List Char) : Nat :=
  l.foldl (fun a c => a * 10 + digitVal c) 0

/-- All characters are ASCII digits. -/
def allDigits (l : List Char) : Bool := l.all Char.isDigit

/-- Decimal digit characters of a natural number, as in Python `str(n)`. -/
def decChars (n : Nat) : List Char := Nat.toDigits 10 n

/-- Left-pad with zeros to the given width. -/
def padZero (w : Nat) (l : List Char) : List Char :=
  List.replicate (w - l.length) '0' ++ l

/-- Python formatting of a natural to at least two digits, zero padded. -/
def fmt2 (n : Nat) : List Char := padZero 2 (decChars n)

/-- Python formatting of a natural to at least four digits, zero padded. -/
def fmt4 (n : Nat) : List Char := padZero 4 (decChars n)

/-- `List.isPrefixOf`-based model of Python `str.startswith`. -/
def startsWithB (s pre : String) : Bool := List.isPrefixOf pre.data s.data

/-- Model of Python `str.endswith`. -/
def endsWithB (s suf : String) : Bool := List.isSuffixOf suf.data s.data

/-! ### Gregorian calendar facts (Python `datetime.date` constructor) -/

/-- Gregorian leap year rule. -/
def isLeapYear (y : Nat) : Bool :=
  y % 4 = 0 && (y % 100 ≠ 0 || y % 400 = 0)

/-- Number of days of month `m` of year `y`. -/
def daysInMonth (y m : Nat) : Nat :=
  if m = 2 then (if isLeapYear y then 29 else 28)
  else if m = 4 || m = 6 || m = 9 || m = 11 then 30
  else 31

/-- Validity of `datetime.date(y, m, d)` (MINYEAR = 1, MAXYEAR = 9999);
the constructor raises `ValueError` exactly when this is false. -/
def validYMD (y m d : Nat) : Bool :=
  1 ≤ y && y ≤ 9999 && 1 ≤ m && m ≤ 12 && 1 ≤ d && d ≤ daysInMonth y m

/-- ISO rendering `YYYY-MM-DD` (Python `date.isoformat` / `strftime`). -/
def isoYMD (y m d : Nat) : String :=
  ⟨fmt4 y ++ ('-' :: fmt2 m) ++ ('-' :: fmt2 d)⟩

/-! ### Orderings: Python string and tuple comparison -/

/-- Python string `≤`: lexicographic on code points, which is the
lexicographic order on the character list. -/
def sLe (a b : String) : Prop := a.data ≤ b.data

/-- Python string `<`. -/
def sLt (a b : String) : Prop := a.data < b.data

instance decSLe : DecidableRel sLe := fun a b =>
  inferInstanceAs (Decidable (a.data ≤ b.data))

instance decSLt : DecidableRel sLt := fun a b =>
  inferInstanceAs (Decidable (a.data < b.data))

/-- Python tuple `≤` on a pair of linearly ordered components. -/
def lexLe {α β : Type} [LinearOrder α] [LinearOrder β] (a b : α × β) : Prop :=
  a.1 < b.1 ∨ (a.1 = b.1 ∧ a.2 ≤ b.2)

instance decLexLe {α β : Type} [LinearOrder α] [LinearOrder β] :
    DecidableRel (@lexLe α β _ _) := fun a b => by
  unfold lexLe; infer_instance

theorem lexLe_refl {α β : Type} [LinearOrder α] [LinearOrder β] (a : α × β) :
    lexLe a a := Or.inr ⟨rfl, le_refl _⟩

theorem lexLe_total {α β : Type} [LinearOrder α] [LinearOrder β]
    (a b : α × β) : lexLe a b ∨ lexLe b a := by
  rcases lt_trichotomy a.1 b.1 with h | h | h
  · exact Or.inl (Or.inl h)
  · rcases le_total a.2 b.2 with h2 | h2
    · exact Or.inl (Or.inr ⟨h, h2⟩)
    · exact Or.inr (Or.inr ⟨h.symm, h2⟩)
  · exact Or.inr (Or.inl h)

theorem lexLe_trans {α β : Type} [LinearOrder α] [LinearOrder β]
    {a b c : α × β} (hab : lexLe a b) (hbc : lexLe b c) : lexLe a c := by
  rcases hab with h1 | ⟨h1, h1'⟩
  · rcases hbc with h2 | ⟨h2, h2'⟩
    · exact Or.inl (h1.trans h2)
    · exact Or.inl (h2 ▸ h1)
  · rcases hbc with h2 | ⟨h2, h2'⟩
    · exact Or.inl (h1 ▸ h2)
    · exact Or.inr ⟨h1.trans h2, h1'.trans h2'⟩

/-- Membership is preserved by the sorting model. -/
theorem mem_insertionSort {α : Type} {r : α → α → Prop} [DecidableRel r]
    {l : List α} {x : α} : x ∈ List.insertionSort r l ↔ x ∈ l :=
  (List.perm_insertionSort r l).mem_iff

/-- In a sorted list every element is related to the last element
(for a reflexive relation). -/
theorem sorted_rel_getLast? {α : Type} {r : α → α → Prop}
    (hrefl : ∀ a, r a a) :
    ∀ {l : List α}, l.Sorted r → ∀ {y : α}, l.getLast? = some y →
      ∀ x ∈ l, r x y
  | [], _, _, hy => by simp at hy
  | [a], _, y, hy => by
    intro x hx
    simp at hy hx
    subst hy; subst hx; exact hrefl _
  | a :: b :: t, hs, y, hy => by
    intro x hx
    rw [List.getLast?_cons_cons] at hy
    rcases List.mem_cons.mp hx with rfl | hx'
    · exact List.rel_of_sorted_cons hs y (List.mem_of_mem_getLast? hy)
    · exact sorted_rel_getLast? hrefl (List.sorted_cons.mp hs).2 hy x hx'

/-! ### `reginfo_patch.py`: text cleaning, booleans, partial dates -/

/-- Squeeze runs of the character `x` to single occurrences. -/
def squeezeRuns (x : Char) : List Char → List Char
  | [] => []
  | [c] => [c]
  | c :: c2 :: cs =>
    if c = x ∧ c2 = x then squeezeRuns x (c2 :: cs)
    else c :: squeezeRuns x (c2 :: cs)

/-- Python `re.sub` of whitespace runs by a single space: every maximal
whitespace run becomes one space. -/
def pyCollapseWs (l : List Char) : List Char :=
  squeezeRuns ' ' (l.map (fun c => if isWsC c then ' ' else c))

/-- `_clean_text` from reginfo_patch.py.  The HTML entity decoder
`html.unescape` is an external stdlib function and is passed in as the
parameter `unesc`. -/
def cleanText (unesc : String → String) : Option String → Option String
  | none => none
  | some txt =>
    let u := unesc txt
    let c : String := ⟨stripChars (pyCollapseWs u.data)⟩
    if c = "" then none else some c

/-- The truthy vocabulary `_BOOL_TRUE` of reginfo_patch.py. -/
def boolTrueTokens : List String := ["yes", "y", "true", "t", "1"]

/-- The falsy vocabulary `_BOOL_FALSE` of reginfo_patch.py. -/
def boolFalseTokens : List String := ["no", "n", "false", "f", "0"]

/-- `_to_bool` from reginfo_patch.py. -/
def toBoolPy : Option String → Option Bool
  | none => none
  | some val =>
    let v := pyLower (pyStrip val)
    if v ∈ boolTrueTokens then some true
    else if v ∈ boolFalseTokens then some false
    else none

/-- Result type of `_normalize_tri_state`: Python `None`, a `bool`, or the
cleaned original string. -/
inductive Tri where
  | noneV : Tri
  | boolV : Bool → Tri
  | strV : String → Tri
deriving DecidableEq

/-- `_normalize_tri_state` from reginfo_patch.py. -/
def normalizeTriState (unesc : String → String) (v : Option String) : Tri :=
  match cleanText unesc v with
  | none => Tri.noneV
  | some vv =>
    match toBoolPy (some vv) with
    | some b => Tri.boolV b
    | none => Tri.strV vv

/-- The anchored `_DATE_RE` of reginfo_patch.py: exactly two digits, a slash,
two digits, a slash, four digits; on success yields `(month, day, year)`. -/
def matchMMDDYYYY (s : String) : Option (Nat × Nat × Nat) :=
  match s.data with
  | [m1, m2, s1, d1, d2, s2, y1, y2, y3, y4] =>
    if m1.isDigit && m2.isDigit && s1 = '/' && d1.isDigit && d2.isDigit &&
        s2 = '/' && y1.isDigit && y2.isDigit && y3.isDigit && y4.isDigit then
      some (natOfDigits [m1, m2], natOfDigits [d1, d2],
        natOfDigits [y1, y2, y3, y4])
    else none
  | _ => none

/-- Body of `_parse_partial_date` on a string value (the falsiness test `if
not va` covers the empty string). -/
def parsePartialDateS (v : String) : Option (Nat × Nat × Nat) × String :=
  if v = "" then (none, "unknown")
  else
    match matchMMDDYYYY (pyStrip v) with
    | none => (none, "unknown")
    | some (mm, dd, yy) =>
      if mm = 0 ∧ dd = 0 then (none, "unknown")
      else if dd = 0 then
        (if validYMD yy mm 1 then (some (yy, mm, 1), "month")
         else (none, "unknown"))
      else
        (if validYMD yy mm dd then (some (yy, mm, dd), "day")
         else (none, "unknown"))

/-- `_parse_partial_date` from reginfo_patch.py; a date is represented by a
`(year, month, day)` triple, the second component is the precision tag. -/
def parsePartialDate (va : Option String) :
    Option (Nat × Nat × Nat) × String :=
  match va with
  | none => (none, "unknown")
  | some v => parsePartialDateS v

/-! ### XML tree model and namespace-agnostic access -/

/-- An XML element: its (possibly namespace-qualified) tag, its text content
before the first child, and its child elements. -/
inductive XNode where
  | elem (tag : String) (text : String) (children : List XNode)

def XNode.tag : XNode → String
  | .elem tg _ _ => tg

def XNode.text : XNode → String
  | .elem _ tx _ => tx

def XNode.children : XNode → List XNode
  | .elem _ _ ch => ch

/-- `_lname`: the part of a tag after the last right brace, i.e. the local
name with any namespace decoration stripped. -/
def lnameStr (tag : String) : String :=
  ⟨(tag.data.reverse.takeWhile (fun c => c ≠ '}')).reverse⟩

/-- `_child`: first immediate child with the given local name
(case-sensitive). -/
def childByName (e : XNode) (name : String) : Option XNode :=
  e.children.find? (fun ch => lnameStr ch.tag == name)

/-- `_children`: all immediate children with the given local name. -/
def childrenByName (e : XNode) (name : String) : List XNode :=
  e.children.filter (fun ch => lnameStr ch.tag == name)

/-- `_text_child`: stripped text of the first matching immediate child,
or the empty string. -/
def textChild (e : XNode) (name : String) : String :=
  match childByName e name with
  | some c => pyStrip c.text
  | none => ""

/-! ### JSON serialization (`json.dumps(obj, ensure_ascii=False)`) -/

/-- Lower-case hex digit. -/
def hexDigit (n : Nat) : Char :=
  if n < 10 then Char.ofNat (48 + n) else Char.ofNat (87 + n)

/-- JSON escaping of one character, as in Python `json.dumps` with
`ensure_ascii=False`. -/
def jsonEscapeC (c : Char) : List Char :=
  if c = '"' then ['\\', '"']
  else if c = '\\' then ['\\', '\\']
  else if c = '\n' then ['\\', 'n']
  else if c = '\t' then ['\\', 't']
  else if c = '\r' then ['\\', 'r']
  else if c = '\x08' then ['\\', 'b']
  else if c = '\x0c' then ['\\', 'f']
  else if c.toNat < 32 then
    ['\\', 'u', '0', '0', hexDigit (c.toNat / 16), hexDigit (c.toNat % 16)]
  else [c]

/-- JSON values produced by the parsers: strings, arrays and objects. -/
inductive Json where
  | str (s : String)
  | arr (items : List Json)
  | obj (fields : List (String × Json))

/-- Rendered JSON string literal (with quotes). -/
def jsonStrChars (s : String) : List Char :=
  '"' :: (s.data.map jsonEscapeC).flatten ++ ['"']

mutual

/-- Render a JSON value with Python's default separators. -/
def Json.render : Json → List Char
  | .str s => jsonStrChars s
  | .arr items => '[' :: Json.renderArr items ++ [']']
  | .obj fs => '{' :: Json.renderObj fs ++ ['}']

def Json.renderArr : List Json → List Char
  | [] => []
  | [x] => Json.render x
  | x :: y :: r => Json.render x ++ (',' :: ' ' :: Json.renderArr (y :: r))

def Json.renderObj : List (String × Json) → List Char
  | [] => []
  | [(k, v)] => jsonStrChars k ++ (':' :: ' ' :: Json.render v)
  | (k, v) :: y :: r =>
    jsonStrChars k ++ (':' :: ' ' :: Json.render v) ++
      (',' :: ' ' :: Json.renderObj (y :: r))

end

/-- `_json` of UA_Parser_For_Single_xml_9_12_25.py. -/
def jsonDump (j : Json) : String := ⟨j.render⟩

/-- JSON of a list of plain strings. -/
def jsonOfStrList (l : List String) : String :=
  jsonDump (Json.arr (l.map Json.str))

/-! ### `UA_Parser_For_Single_xml_9_12_25.py`: tabular dates -/

/-- Split a character list at every slash (Python `str.split("/")`-like;
used to model the anchored slash-separated date regexes). -/
def splitSlashAux : List Char → List Char → List (List Char)
  | [], acc => [acc.reverse]
  | c :: cs, acc =>
    if c = '/' then acc.reverse :: splitSlashAux cs []
    else splitSlashAux cs (c :: acc)

def splitSlash (l : List Char) : List (List Char) := splitSlashAux l []

/-- One or two digits. -/
def dGroup12 (l : List Char) : Bool :=
  (l.length = 1 || l.length = 2) && allDigits l

/-- Exactly four digits. -/
def dGroup4 (l : List Char) : Bool := l.length = 4 && allDigits l

/-- Full match of one-or-two digits, slash, one-or-two digits, slash, four
digits; splitting at slashes is equivalent to the anchored regex because the
digit groups contain no slash. -/
def matchTT3 (s : String) : Option (Nat × Nat × Nat) :=
  match splitSlash s.data with
  | [a, b, c] =>
    if dGroup12 a && dGroup12 b && dGroup4 c then
      some (natOfDigits a, natOfDigits b, natOfDigits c)
    else none
  | _ => none

/-- Full match of one-or-two digits, slash, the literal `00`, slash, four
digits.  (Dead code in the source: `matchTT3` already matches every such
string; kept for fidelity.) -/
def matchTT00 (s : String) : Option (Nat × Nat) :=
  match splitSlash s.data with
  | [a, b, c] =>
    if dGroup12 a && (b = ['0', '0']) && dGroup4 c then
      some (natOfDigits a, natOfDigits c)
    else none
  | _ => none

/-- Full match of one-or-two digits, slash, four digits. -/
def matchTT2 (s : String) : Option (Nat × Nat) :=
  match splitSlash s.data with
  | [a, c] =>
    if dGroup12 a && dGroup4 c then some (natOfDigits a, natOfDigits c)
    else none
  | _ => none

/-- Model of Python `datetime.strptime(s, "%m/%d/%Y")`: month 1..12 in one or
two digits, day 1..31 in one or two digits, exactly four year digits, and
calendar validation by the datetime constructor.  (Unreachable in
`parseTtDateS`: the first alternative already fires on every such string.) -/
def strptimeMDY (s : String) : Option String :=
  match matchTT3 s with
  | some (mm, dd, yy) =>
    if 1 ≤ mm && mm ≤ 12 && 1 ≤ dd && dd ≤ 31 && validYMD yy mm dd then
      some (isoYMD yy mm dd)
    else none
  | none => none

/-- `_parse_tt_date` from UA_Parser_For_Single_xml_9_12_25.py (the local
variable `s = raw.strip()` is inlined). -/
def parseTtDateS (raw : String) : String :=
  if pyStrip raw = "" then ""
  else if startsWithB (pyLower (pyStrip raw)) "to be" then ""
  else
    match matchTT3 (pyStrip raw) with
    | some (mm, dd, yy) =>
      if 1 ≤ mm ∧ mm ≤ 12 then isoYMD yy mm (if dd = 0 then 1 else dd) else ""
    | none =>
      match matchTT00 (pyStrip raw) with
      | some (mm, yy) => if 1 ≤ mm ∧ mm ≤ 12 then isoYMD yy mm 1 else ""
      | none =>
        match matchTT2 (pyStrip raw) with
        | some (mm, yy) => if 1 ≤ mm ∧ mm ≤ 12 then isoYMD yy mm 1 else ""
        | none =>
          match strptimeMDY (pyStrip raw) with
          | some iso => iso
          | none => ""

/-! ### `UA_Parser_For_Single_xml_9_12_25.py`: the record flattener -/

/-- One extracted timetable item of the single-XML parser. -/
structure TTP where
  action : String
  dateRaw : String
  dateIso : String
  fr : String
deriving DecidableEq

def ttpDateLe (a b : TTP) : Prop := sLe a.dateIso b.dateIso

instance decTtpDateLe : DecidableRel ttpDateLe := fun _ _ => decSLe _ _

/-- The latest-event computation inside `_parse_rin_info` of the single-XML
parser: filter to items with a non-empty normalized date, stable-sort by the
date only, take the last item; returns `(Latest_Action, latest_action_date)`. -/
def latestSingleXml (ttList : List TTP) : String × String :=
  match ttList with
  | [] => ("", "")
  | _ =>
    match ttList.filter (fun it => !(it.dateIso == "")) with
    | [] => ("", "")
    | withIso =>
      match (List.insertionSort ttpDateLe withIso).getLast? with
      | some lastIt => (lastIt.action, lastIt.dateIso)
      | none => ("", "")

/-- Extraction of one TIMETABLE element. -/
def ttpOfNode (tt : XNode) : TTP :=
  let dtRaw := textChild tt "TTBL_DATE"
  { action := textChild tt "TTBL_ACTION"
    dateRaw := dtRaw
    dateIso := parseTtDateS dtRaw
    fr := textChild tt "FR_CITATION" }

/-- The TIMETABLE_LIST extraction of `_parse_rin_info`. -/
def timetableOf (ri : XNode) : List TTP :=
  match childByName ri "TIMETABLE_LIST" with
  | none => []
  | some p => (childrenByName p "TIMETABLE").map ttpOfNode

/-- A simple list block: stripped texts of the item children of the list
container child. -/
def simpleListOf (ri : XNode) (listTag itemTag : String) : List String :=
  match childByName ri listTag with
  | none => []
  | some p => (childrenByName p itemTag).map (fun it => pyStrip it.text)

/-- JSON value of one timetable item. -/
def ttpJson (it : TTP) : Json :=
  Json.obj [("TTBL_ACTION", Json.str it.action),
    ("TTBL_DATE", Json.str it.dateRaw),
    ("TTBL_DATE_ISO", Json.str it.dateIso),
    ("FR_CITATION", Json.str it.fr)]

/-- JSON value of one LEGAL_DLINE_INFO item. -/
def dlineJson (li : XNode) : Json :=
  Json.obj [("DLINE_TYPE", Json.str (textChild li "DLINE_TYPE")),
    ("DLINE_ACTION_STAGE", Json.str (textChild li "DLINE_ACTION_STAGE")),
    ("DLINE_DATE", Json.str (textChild li "DLINE_DATE")),
    ("DLINE_DESC", Json.str (textChild li "DLINE_DESC"))]

/-- JSON value of one RELATED_RIN item. -/
def relatedJson (it : XNode) : Json :=
  Json.obj [("RIN", Json.str (textChild it "RIN")),
    ("RIN_RELATION", Json.str (textChild it "RIN_RELATION"))]

/-- JSON value of one CHILD_RIN item. -/
def childRinJson (it : XNode) : Json :=
  Json.obj [("RIN", Json.str (textChild it "RIN")),
    ("RULE_TITLE", Json.str (textChild it "RULE_TITLE"))]

/-- JSON value of one CONTACT item: the eleven personal fields, then the
optional nested AGENCY and MAILING_ADDRESS objects. -/
def contactJson (ct : XNode) : Json :=
  let base : List (String × Json) :=
    [("PREFIX", Json.str (textChild ct "PREFIX")),
     ("FIRST_NAME", Json.str (textChild ct "FIRST_NAME")),
     ("MIDDLE_NAME", Json.str (textChild ct "MIDDLE_NAME")),
     ("LAST_NAME", Json.str (textChild ct "LAST_NAME")),
     ("SUFFIX", Json.str (textChild ct "SUFFIX")),
     ("TITLE", Json.str (textChild ct "TITLE")),
     ("PHONE", Json.str (textChild ct "PHONE")),
     ("PHONE_EXT", Json.str (textChild ct "PHONE_EXT")),
     ("TDD_PHONE", Json.str (textChild ct "TDD_PHONE")),
     ("FAX", Json.str (textChild ct "FAX")),
     ("EMAIL", Json.str (textChild ct "EMAIL"))]
  let withAg :=
    match childByName ct "AGENCY" with
    | none => base
    | some ag =>
      base ++ [("AGENCY", Json.obj
        [("CODE", Json.str (textChild ag "CODE")),
         ("NAME", Json.str (textChild ag "NAME")),
         ("ACRONYM", Json.str (textChild ag "ACRONYM"))])]
  let withAddr :=
    match childByName ct "MAILING_ADDRESS" with
    | none => withAg
    | some ad =>
      withAg ++ [("MAILING_ADDRESS", Json.obj
        [("STREET_ADDRESS", Json.str (textChild ad "STREET_ADDRESS")),
         ("CITY", Json.str (textChild ad "CITY")),
         ("STATE", Json.str (textChild ad "STATE")),
         ("ZIP", Json.str (textChild ad "ZIP"))])]
  Json.obj withAddr

/-- `_KNOWN_GROUPS_L1` of UA_Parser_For_Single_xml_9_12_25.py. -/
def knownGroupsL1 : List String :=
  ["RIN", "PUBLICATION", "AGENCY", "PARENT_AGENCY",
   "RULE_TITLE", "ABSTRACT", "PRIORITY_CATEGORY", "RIN_STATUS", "RULE_STAGE",
   "MAJOR", "EO_13771_DESIGNATION", "FEDERALISM",
   "UNFUNDED_MANDATE_LIST", "CFR_LIST", "LEGAL_AUTHORITY_LIST",
   "LEGAL_DLINE_LIST",
   "RPLAN_ENTRY", "RPLAN_INFO", "TIMETABLE_LIST",
   "RFA_REQUIRED", "SMALL_ENTITY_LIST", "GOVT_LEVEL_LIST",
   "PRINT_PAPER", "INTERNATIONAL_INTEREST",
   "RELATED_RIN_LIST", "CHILD_RIN_LIST", "AGENCY_CONTACT_LIST",
   "REINVENT_GOVT", "ADDITIONAL_INFO", "PROCUREMENT", "SIC_DESC",
   "PARENT_RIN", "COMPLIANCE_COST"]

/-- Python dict lookup on an ordered association list. -/
def lookupKV (m : List (String × String)) (k : String) : Option String :=
  match m with
  | [] => none
  | (a, b) :: t => if a = k then some b else lookupKV t k

/-- The explicit extraction steps of `_parse_rin_info`, in source order;
every key is a distinct constant, so an ordered association list models the
Python dict exactly. -/
def parseRinInfoBase (ri : XNode) : List (String × String) :=
  let pub := childByName ri "PUBLICATION"
  let ag := childByName ri "AGENCY"
  let pag := childByName ri "PARENT_AGENCY"
  let rplan := childByName ri "RPLAN_INFO"
  let cc := childByName ri "COMPLIANCE_COST"
  let ttList := timetableOf ri
  let latest := latestSingleXml ttList
  [("RIN", textChild ri "RIN"),
   ("PUBLICATION_ID",
     match pub with | some p => textChild p "PUBLICATION_ID" | none => ""),
   ("PUBLICATION_TITLE",
     match pub with | some p => textChild p "PUBLICATION_TITLE" | none => ""),
   ("AGENCY_CODE", match ag with | some a => textChild a "CODE" | none => ""),
   ("AGENCY_NAME", match ag with | some a => textChild a "NAME" | none => ""),
   ("AGENCY_ACRONYM",
     match ag with | some a => textChild a "ACRONYM" | none => ""),
   ("PARENT_AGENCY_CODE",
     match pag with | some a => textChild a "CODE" | none => ""),
   ("PARENT_AGENCY_NAME",
     match pag with | some a => textChild a "NAME" | none => ""),
   ("PARENT_AGENCY_ACRONYM",
     match pag with | some a => textChild a "ACRONYM" | none => ""),
   ("RULE_TITLE", textChild ri "RULE_TITLE"),
   ("ABSTRACT", textChild ri "ABSTRACT"),
   ("PRIORITY_CATEGORY", textChild ri "PRIORITY_CATEGORY"),
   ("RIN_STATUS", textChild ri "RIN_STATUS"),
   ("RULE_STAGE", textChild ri "RULE_STAGE"),
   ("MAJOR", textChild ri "MAJOR"),
   ("EO_13771_DESIGNATION", textChild ri "EO_13771_DESIGNATION"),
   ("FEDERALISM", textChild ri "FEDERALISM"),
   ("UNFUNDED_MANDATE_LIST",
     jsonOfStrList (simpleListOf ri "UNFUNDED_MANDATE_LIST" "UNFUNDED_MANDATE")),
   ("CFR_LIST", jsonOfStrList (simpleListOf ri "CFR_LIST" "CFR")),
   ("LEGAL_AUTHORITY_LIST",
     jsonOfStrList (simpleListOf ri "LEGAL_AUTHORITY_LIST" "LEGAL_AUTHORITY")),
   ("LEGAL_DLINE_LIST",
     jsonDump (Json.arr
       ((match childByName ri "LEGAL_DLINE_LIST" with
         | none => []
         | some p => childrenByName p "LEGAL_DLINE_INFO").map dlineJson))),
   ("RPLAN_ENTRY", textChild ri "RPLAN_ENTRY"),
   ("RPLAN_INFO_STMT_OF_NEED",
     match rplan with | some r => textChild r "STMT_OF_NEED" | none => ""),
   ("RPLAN_INFO_LEGAL_BASIS",
     match rplan with | some r => textChild r "LEGAL_BASIS" | none => ""),
   ("RPLAN_INFO_ALTERNATIVES",
     match rplan with | some r => textChild r "ALTERNATIVES" | none => ""),
   ("RPLAN_INFO_COSTS_AND_BENEFITS",
     match rplan with | some r => textChild r "COSTS_AND_BENEFITS" | none => ""),
   ("RPLAN_INFO_RISKS",
     match rplan with | some r => textChild r "RISKS" | none => ""),
   ("TIMETABLE_LIST", jsonDump (Json.arr (ttList.map ttpJson))),
   ("Latest_Action", latest.1),
   ("latest_action_date", latest.2),
   ("RFA_REQUIRED", textChild ri "RFA_REQUIRED"),
   ("SMALL_ENTITY_LIST",
     jsonOfStrList (simpleListOf ri "SMALL_ENTITY_LIST" "SMALL_ENTITY")),
   ("GOVT_LEVEL_LIST",
     jsonOfStrList (simpleListOf ri "GOVT_LEVEL_LIST" "GOVT_LEVEL")),
   ("PRINT_PAPER", textChild ri "PRINT_PAPER"),
   ("INTERNATIONAL_INTEREST", textChild ri "INTERNATIONAL_INTEREST"),
   ("RELATED_RIN_LIST",
     jsonDump (Json.arr
       ((match childByName ri "RELATED_RIN_LIST" with
         | none => []
         | some p => childrenByName p "RELATED_RIN").map relatedJson))),
   ("CHILD_RIN_LIST",
     jsonDump (Json.arr
       ((match childByName ri "CHILD_RIN_LIST" with
         | none => []
         | some p => childrenByName p "CHILD_RIN").map childRinJson))),
   ("AGENCY_CONTACT_LIST",
     jsonDump (Json.arr
       ((match childByName ri "AGENCY_CONTACT_LIST" with
         | none => []
         | some p => childrenByName p "CONTACT").map contactJson))),
   ("REINVENT_GOVT", textChild ri "REINVENT_GOVT"),
   ("ADDITIONAL_INFO", textChild ri "ADDITIONAL_INFO"),
   ("PROCUREMENT", textChild ri "PROCUREMENT"),
   ("SIC_DESC", textChild ri "SIC_DESC"),
   ("PARENT_RIN", textChild ri "PARENT_RIN"),
   ("COMPLIANCE_COST_BASE_YEAR",
     match cc with | some c => textChild c "BASE_YEAR" | none => ""),
   ("COMPLIANCE_COST_INITIAL_PUBLIC_COST",
     match cc with | some c => textChild c "INITIAL_PUBLIC_COST" | none => ""),
   ("COMPLIANCE_COST_RECURRING_PUBLIC_COST",
     match cc with
     | some c => textChild c "RECURRING_PUBLIC_COST" | none => "")]

/-- The auto-capture loop at the end of `_parse_rin_info`: walk the immediate
children in order; skip known tags and non-leaf elements; add a leaf's
stripped text under its upper-cased tag only when that key is not yet
present. -/
def autoCapture (known : List String) (out : List (String × String)) :
    List XNode → List (String × String)
  | [] => out
  | ch :: rest =>
    let tg := lnameStr ch.tag
    if tg ∈ known then autoCapture known out rest
    else if ch.children.isEmpty then
      let key := pyUpper tg
      if (lookupKV out key).isSome then autoCapture known out rest
      else autoCapture known (out ++ [(key, pyStrip ch.text)]) rest
    else autoCapture known out rest

/-- `_parse_rin_info` of UA_Parser_For_Single_xml_9_12_25.py. -/
def parseRinInfo (ri : XNode) : List (String × String) :=
  autoCapture knownGroupsL1 (parseRinInfoBase ri) ri.children

mutual

/-- Elements of a tree in end-event (postorder) sequence, the order in which
`iterparse(events=("end",))` reports them. -/
def postorderEls : XNode → List XNode
  | .elem tg tx ch => postorderList ch ++ [XNode.elem tg tx ch]

def postorderList : List XNode → List XNode
  | [] => []
  | c :: cs => postorderEls c ++ postorderList cs

end

/-- `_iter_rin_infos`: every element whose local name is exactly RIN_INFO,
in end-event order. -/
def rinInfoEls (doc : XNode) : List XNode :=
  (postorderEls doc).filter (fun el => lnameStr el.tag == "RIN_INFO")

/-- The row-collection loop of `build_ua_csv_from_xml`: one record per
RIN_INFO element, with no filtering of any kind. -/
def buildRows (doc : XNode) : List (List (String × String)) :=
  (rinInfoEls doc).map parseRinInfo

/-! ### `UA_COMPILER_8_21_25.py`: namespace-agnostic walkers

`elem.iter()` of lxml yields the element itself and all descendants in
document (preorder) order; `has_ancestor_named` inspects the chain of
parents.  `descPairs anc n` lists every element of the subtree of `n` in that
order together with the lower-cased local names of its ancestors inside the
subtree (prepended to `anc`); the searched element is always the RIN_INFO
root, whose own ancestors in the document carry none of the excluded names. -/

mutual

def descPairs (anc : List String) : XNode → List (List String × XNode)
  | .elem tg tx ch =>
    (anc, XNode.elem tg tx ch) ::
      descPairsList (pyLower (lnameStr tg) :: anc) ch

def descPairsList (anc : List String) : List XNode → List (List String × XNode)
  | [] => []
  | c :: cs => descPairs anc c ++ descPairsList anc cs

end

/-- `first_desc_by_name`: first element of the subtree (preorder,
case-insensitive local-name match) that is not under an excluded container. -/
def firstDescEx (el : XNode) (name : String) (ex : List String) :
    Option XNode :=
  ((descPairs [] el).find? (fun p =>
    pyLower (lnameStr p.2.tag) == name && !(p.1.any (fun a => a ∈ ex)))).map
    Prod.snd

/-- `all_desc_by_name`, keeping each hit together with its ancestor names. -/
def allDescPairsEx (el : XNode) (name : String) (ex : List String) :
    List (List String × XNode) :=
  (descPairs [] el).filter (fun p =>
    pyLower (lnameStr p.2.tag) == name && !(p.1.any (fun a => a ∈ ex)))

/-- Stripped text of an optional node (`t(n.text) if n is not None else ""`). -/
def optText (n : Option XNode) : String :=
  match n with
  | some nd => pyStrip nd.text
  | none => ""

/-! ### `UA_COMPILER_8_21_25.py`: dates, dict model, extractors -/

/-- `parse_tt_date` from UA_COMPILER_8_21_25.py; the `dateutil` fuzzy parser
of the final fallback is an external library function and is passed in as the
parameter `fuzzy` (returning the `strftime` rendering, or `none` when it
raises).  Returns `(raw, iso)`. -/
def parseTtDateC (fuzzy : String → Option String) (raw : String) :
    String × String :=
  let s := pyStrip raw
  if s = "" ∨ startsWithB (pyLower s) "to be" ∨ startsWithB (pyLower s) "tbd"
  then (s, "")
  else
    match matchTT3 s with
    | some (mm, dd, yy) =>
      if 1 ≤ mm ∧ mm ≤ 12 then (s, isoYMD yy mm (if dd = 0 then 1 else dd))
      else (s, "")
    | none =>
      match matchTT2 s with
      | some (mm, yy) =>
        if 1 ≤ mm ∧ mm ≤ 12 then (s, isoYMD yy mm 1) else (s, "")
      | none =>
        match fuzzy s with
        | some iso => (s, iso)
        | none => (s, "")

/-- Python-dict assignment on an ordered association list: overwrite in
place when the key exists, append otherwise. -/
def dictSet (m : List (String × String)) (k v : String) :
    List (String × String) :=
  if (lookupKV m k).isSome then
    m.map (fun p => (p.1, if p.1 = k then v else p.2))
  else m ++ [(k, v)]

/-- Python `dict.update` with an ordered list of key/value pairs. -/
def dictUpdate (m : List (String × String)) (kvs : List (String × String)) :
    List (String × String) :=
  kvs.foldl (fun acc p => dictSet acc p.1 p.2) m

/-- Truthiness of `rec.get(k)` for a string-valued dict: `None` or `""`. -/
def pyFalsyStrOpt (o : Option String) : Bool :=
  match o with
  | none => true
  | some v => v == ""

/-- `_LIST_CONTAINERS` of UA_COMPILER_8_21_25.py. -/
def listContainersC : List String :=
  ["agency_contact_list", "timetable_list", "legal_dline_list", "cfr_list",
   "legal_authority_list", "small_entity_list", "govt_level_list",
   "related_rin_list", "unfunded_mandate_list"]

/-- `_EXCLUDE_ANCESTOR` of UA_COMPILER_8_21_25.py. -/
def excludeAncestorC : List String :=
  listContainersC ++ ["agency", "parent_agency", "publication"]

/-- ASCII `\w` character class. -/
def isWordC (c : Char) : Bool := c.isAlpha || c.isDigit || c = '_'

/-- `snake` of UA_COMPILER_8_21_25.py: non-word runs become single
underscores, underscore runs are collapsed, ends are stripped of
underscores, and the result is lower-cased. -/
def snakeStr (s : String) : String :=
  let u := squeezeRuns '_' (s.data.map (fun c => if isWordC c then c else '_'))
  let v := (((u.dropWhile (fun c => c == '_')).reverse.dropWhile
    (fun c => c == '_')).reverse).map lowerC
  ⟨v⟩

/-- `_CANON` of UA_COMPILER_8_21_25.py. -/
def canonAliases : List (String × String) :=
  [("title", "title"), ("rule_title", "title"), ("stage", "stage"),
   ("rule_stage", "stage"), ("priority", "priority"),
   ("priority_category", "priority_category"),
   ("publication_id", "publication_id"),
   ("publication_title", "publication_title"), ("rin", "rin")]

/-- `canon` of UA_COMPILER_8_21_25.py. -/
def canonC (col : String) : String :=
  let key := snakeStr col
  match lookupKV canonAliases key with
  | some v => v
  | none => key

/-- `to_pub_ym_from_file`: `re.search` of the anchored-at-end pattern
`REGINFO_RIN_DATA_` + six digits + `.xml` (case-sensitive) on the basename;
with the end anchor, a match exists iff the 27-character tail has this
shape. -/
def toPubYmFromFile (base : String) : String :=
  let cs := base.data
  if cs.length < 27 then ""
  else
    let t27 := cs.drop (cs.length - 27)
    if t27.take 17 = "REGINFO_RIN_DATA_".data ∧
        allDigits ((t27.drop 17).take 6) ∧ t27.drop 23 = ".xml".data then
      ⟨(t27.drop 17).take 6⟩
    else ""

/-- `pub_season` of UA_COMPILER_8_21_25.py. -/
def pubSeason (ym : String) : String :=
  if ym = "" ∨ ym.data.length ≠ 6 ∨ ¬ allDigits ym.data then ""
  else if ym.data.drop 4 = ['0', '4'] then "Spring"
  else if ym.data.drop 4 = ['1', '0'] then "Fall"
  else ""

/-- `extract_publication` of UA_COMPILER_8_21_25.py: an empty dict when no
PUBLICATION element is found outside the list containers. -/
def extractPublicationC (ri : XNode) : List (String × String) :=
  match firstDescEx ri "publication" listContainersC with
  | none => []
  | some pub =>
    [("publication_id", optText (firstDescEx pub "publication_id" [])),
     ("publication_title", optText (firstDescEx pub "publication_title" []))]

/-- `extract_agency_block` of UA_COMPILER_8_21_25.py.  When the block is
missing the function returns only the three empty sub-fields; the shorthand
key is added only when the block exists. -/
def extractAgencyBlockC (ri : XNode) (blockName : String) :
    List (String × String) :=
  let base := [(blockName ++ "_name", ""), (blockName ++ "_code", ""),
    (blockName ++ "_acronym", "")]
  match firstDescEx ri blockName ["agency_contact_list"] with
  | none => base
  | some blk =>
    let m1 := dictSet base (blockName ++ "_code")
      (optText (firstDescEx blk "code" []))
    let m2 := dictSet m1 (blockName ++ "_name")
      (optText (firstDescEx blk "name" []))
    let m3 := dictSet m2 (blockName ++ "_acronym")
      (optText (firstDescEx blk "acronym" []))
    let nameVal := (lookupKV m3 (blockName ++ "_name")).getD ""
    if blockName == "agency" then dictSet m3 "agency" nameVal
    else if blockName == "parent_agency" then
      dictSet m3 "parent_agency" nameVal
    else m3

/-- `list_texts` of UA_COMPILER_8_21_25.py: for every list container of the
given name, every descendant item (by local name) that sits under the list
container and not under an AGENCY_CONTACT_LIST. -/
def listTexts (ri : XNode) (listTag itemTag : String) : List String :=
  (allDescPairsEx ri listTag []).flatMap (fun p =>
    (descPairs p.1 p.2).filterMap (fun q =>
      if pyLower (lnameStr q.2.tag) == itemTag ∧
          q.1.any (fun a => a == listTag) ∧
          ¬ q.1.any (fun a => a == "agency_contact_list") then
        some (pyStrip q.2.text)
      else none))

/-- `extract_unfunded` of UA_COMPILER_8_21_25.py. -/
def extractUnfundedC (ri : XNode) : List String :=
  (allDescPairsEx ri "unfunded_mandate_list" []).flatMap (fun p =>
    (descPairs p.1 p.2).filterMap (fun q =>
      if pyLower (lnameStr q.2.tag) == "unfunded_mandate" then
        some (pyStrip q.2.text)
      else none))

/-- JSON of one related-RIN entry (`extract_related_rins` item). -/
def relatedJsonC (rr : XNode) : Json :=
  Json.obj [("rin", Json.str (optText (firstDescEx rr "rin" []))),
    ("relation", Json.str (optText (firstDescEx rr "rin_relation" [])))]

/-- `extract_related_rins` of UA_COMPILER_8_21_25.py, as JSON values. -/
def extractRelatedC (ri : XNode) : List Json :=
  (allDescPairsEx ri "related_rin_list" []).flatMap (fun p =>
    (descPairs p.1 p.2).filterMap (fun q =>
      if pyLower (lnameStr q.2.tag) == "related_rin" then
        some (relatedJsonC q.2)
      else none))

/-- JSON of one contact entry of `extract_contacts`: the eight personal
fields are present only when found; the contact-agency and address fields are
added when their containers exist. -/
def contactJsonC (c : XNode) : Json :=
  let personalTags :=
    ["prefix", "first_name", "middle_name", "last_name", "title", "phone",
     "fax", "email"]
  let personal := personalTags.filterMap (fun tg =>
    (firstDescEx c tg []).map (fun n => (tg, Json.str (pyStrip n.text))))
  let withAg :=
    match firstDescEx c "agency" [] with
    | none => personal
    | some cag =>
      personal ++
        (["code", "name", "acronym"].map (fun tg =>
          ("contact_agency_" ++ tg,
            Json.str (optText (firstDescEx cag tg [])))))
  let withAddr :=
    match firstDescEx c "mailing_address" [] with
    | none => withAg
    | some addr =>
      withAg ++
        (["street_address", "city", "state", "zip"].map (fun tg =>
          ("address_" ++ tg, Json.str (optText (firstDescEx addr tg [])))))
  Json.obj withAddr

/-- `extract_contacts` of UA_COMPILER_8_21_25.py, as JSON values. -/
def extractContactsC (ri : XNode) : List Json :=
  (allDescPairsEx ri "agency_contact_list" []).flatMap (fun p =>
    (descPairs p.1 p.2).filterMap (fun q =>
      if pyLower (lnameStr q.2.tag) == "contact" then some (contactJsonC q.2)
      else none))

/-- One legal deadline entry (`extract_legal_deadlines` item). -/
structure DLC where
  dlineType : String
  dlineActionStage : String
  dlineDate : String
  dlineDesc : String
deriving DecidableEq

/-- `extract_legal_deadlines` of UA_COMPILER_8_21_25.py. -/
def extractLegalDeadlinesC (ri : XNode) : List DLC :=
  (allDescPairsEx ri "legal_dline_list" []).flatMap (fun p =>
    (descPairs p.1 p.2).filterMap (fun q =>
      if pyLower (lnameStr q.2.tag) == "legal_dline_info" then
        some { dlineType := optText (firstDescEx q.2 "dline_type" [])
               dlineActionStage :=
                 optText (firstDescEx q.2 "dline_action_stage" [])
               dlineDate := optText (firstDescEx q.2 "dline_date" [])
               dlineDesc := optText (firstDescEx q.2 "dline_desc" []) }
      else none))

/-- JSON of one legal deadline entry. -/
def dlcJson (d : DLC) : Json :=
  Json.obj [("dline_type", Json.str d.dlineType),
    ("dline_action_stage", Json.str d.dlineActionStage),
    ("dline_date", Json.str d.dlineDate),
    ("dline_desc", Json.str d.dlineDesc)]

/-- One timetable entry of the compiler (`extract_timetable` item). -/
structure TTC where
  action : String
  dateRaw : String
  dateIso : String
  fr : String
deriving DecidableEq

/-- `extract_timetable` of UA_COMPILER_8_21_25.py. -/
def extractTimetableC (fuzzy : String → Option String) (ri : XNode) :
    List TTC :=
  (allDescPairsEx ri "timetable_list" []).flatMap (fun p =>
    (descPairs p.1 p.2).filterMap (fun q =>
      if pyLower (lnameStr q.2.tag) == "timetable" then
        let act := (firstDescEx q.2 "ttbl_action" []) <|>
          (firstDescEx q.2 "action" [])
        let dte := (firstDescEx q.2 "ttbl_date" []) <|>
          (firstDescEx q.2 "date" [])
        let fr := firstDescEx q.2 "fr_citation" []
        let ri2 := parseTtDateC fuzzy (optText dte)
        some { action := optText act, dateRaw := ri2.1, dateIso := ri2.2,
               fr := optText fr }
      else none))

/-- JSON of one compiler timetable entry. -/
def ttcJson (it : TTC) : Json :=
  Json.obj [("action", Json.str it.action),
    ("date_raw", Json.str it.dateRaw),
    ("date_iso", Json.str it.dateIso),
    ("fr_citation", Json.str it.fr)]

/-- The Python tuple key `(date_iso, action)` comparison used by the
compiler's latest-within-issue sort. -/
def ttcKeyLe (a b : TTC) : Prop :=
  lexLe (a.dateIso.data, a.action.data) (b.dateIso.data, b.action.data)

instance decTtcKeyLe : DecidableRel ttcKeyLe := fun _ _ =>
  inferInstanceAs (Decidable (lexLe _ _))

/-- The latest-within-issue computation of `iter_rin_records` (lines 380-387
of UA_COMPILER_8_21_25.py): stable-sort ALL timetable items (no filtering)
ascending by `(date_iso, action)` and take the last; returns
`(latest_iso, latest_action)`. -/
def latestInIssue (tts : List TTC) : String × String :=
  match tts with
  | [] => ("", "")
  | _ =>
    match (List.insertionSort ttcKeyLe tts).getLast? with
    | some lastIt => (lastIt.dateIso, lastIt.action)
    | none => ("", "")

/-- `collect_scalar_leaves` of UA_COMPILER_8_21_25.py: canonicalized scalar
leaves outside the list/agency/publication containers (the last duplicate
wins), followed by the legacy title/stage aliasing. -/
def collectScalarLeaves (ri : XNode) : List (String × String) :=
  let leaves := (descPairs [] ri).foldl (fun out p =>
    if !p.2.children.isEmpty then out
    else
      let ln := lnameStr p.2.tag
      if ln == "" then out
      else if pyLower ln == "rin" then out
      else if p.1.any (fun a => a ∈ excludeAncestorC) then out
      else
        let val := pyStrip p.2.text
        if val == "" then out
        else dictSet out (canonC ln) val) []
  let l2 :=
    if (lookupKV leaves "rule_title").isSome ∧
        (lookupKV leaves "title").isNone then
      dictSet leaves "title" ((lookupKV leaves "rule_title").getD "")
    else leaves
  if (lookupKV l2 "rule_stage").isSome ∧ (lookupKV l2 "stage").isNone then
    dictSet l2 "stage" ((lookupKV l2 "rule_stage").getD "")
  else l2

/-- The trimmed text of the first RIN descendant of an entity element — the
identity that `iter_rin_records` tests before yielding. -/
def rinOfEl (el : XNode) : String := optText (firstDescEx el "rin" [])

/-- The publication-id fallback step of `iter_rin_records`: when
`rec.get("publication_id")` is falsy (missing or empty) the filename-derived
token is written. -/
def pubIdStep (xmlBase : String) (m : List (String × String)) :
    List (String × String) :=
  if pyFalsyStrOpt (lookupKV m "publication_id") then
    dictSet m "publication_id" (toPubYmFromFile xmlBase)
  else m

/-- The `pub_season` step of `iter_rin_records`. -/
def seasonStep (m : List (String × String)) : List (String × String) :=
  dictSet m "pub_season" (pubSeason ((lookupKV m "publication_id").getD ""))

/-- The statutory-deadline flag of `iter_rin_records`. -/
def hasStatFlag (dls : List DLC) : String :=
  if dls.any (fun d => startsWithB (pyLower (pyStrip d.dlineType))
    "statutory") then "1" else "0"

/-- The per-RIN_INFO body of the `iter_rin_records` loop of
UA_COMPILER_8_21_25.py: `none` models the silent `continue` when the RIN is
blank, `some rec` models the yielded record (the `rec` dict assignments are
written as a nested `dictSet`/`dictUpdate` pipeline in source order).
`xmlBase` is the basename of the source path (used both for the
publication-id fallback and for the `source_xml` field). -/
def iterRinRecord (fuzzy : String → Option String) (xmlBase : String)
    (el : XNode) : Option (List (String × String)) :=
  if rinOfEl el = "" then none
  else
    some (dictUpdate
      (dictSet
        (dictSet
          (dictSet
            (dictSet
              (dictSet
                (dictSet
                  (dictSet
                    (dictSet
                      (dictSet
                        (dictSet
                          (dictSet
                            (dictSet
                              (dictUpdate
                                (dictUpdate
                                  (dictSet
                                    (seasonStep (pubIdStep xmlBase
                                      (dictUpdate [("rin", rinOfEl el)]
                                        (extractPublicationC el))))
                                    "source_xml" xmlBase)
                                  (extractAgencyBlockC el "agency"))
                                (extractAgencyBlockC el "parent_agency"))
                              "cfr_list"
                              (jsonOfStrList (listTexts el "cfr_list" "cfr")))
                            "legal_authority_list"
                            (jsonOfStrList (listTexts el
                              "legal_authority_list" "legal_authority")))
                          "small_entity_list"
                          (jsonOfStrList (listTexts el "small_entity_list"
                            "small_entity")))
                        "govt_level_list"
                        (jsonOfStrList (listTexts el "govt_level_list"
                          "govt_level")))
                      "unfunded_mandate_list"
                      (jsonOfStrList (extractUnfundedC el)))
                    "related_rins"
                    (jsonDump (Json.arr (extractRelatedC el))))
                  "contacts"
                  (jsonDump (Json.arr (extractContactsC el))))
                "legal_deadline_list"
                (jsonDump (Json.arr ((extractLegalDeadlinesC el).map dlcJson))))
              "has_statutory_deadline" (hasStatFlag (extractLegalDeadlinesC el)))
            "timetable_all"
            (jsonDump (Json.arr ((extractTimetableC fuzzy el).map ttcJson))))
          "latest_action_date_in_issue"
          (latestInIssue (extractTimetableC fuzzy el)).1)
        "latest_action_in_issue"
        (latestInIssue (extractTimetableC fuzzy el)).2)
      (collectScalarLeaves el))

/-! ### Dataframe model and `build_last` of UA_COMPILER_8_21_25.py

A dataframe row is a function from column names to `Option String`: `none`
models a NaN cell (the row's source dict lacked that key), `some v` a string
cell.  `build_last` receives the dataframe produced by `load_all_xml`, whose
`publication_id` and `rin` columns hold strings in every row. -/

def PRow : Type := String → Option String

/-- Python `str()` of a cell: a NaN cell prints as `nan`. -/
def cellStr (x : Option String) : String :=
  match x with
  | some v => v
  | none => "nan"

/-- The blank test `t(str(last.get(c, ""))) == ""` of `build_last`. -/
def blankCell (x : Option String) : Bool := pyStrip (cellStr x) == ""

/-- pandas `.fillna("")` after a `.map` lookup. -/
def fillNaEmpty (x : Option String) : String := x.getD ""

/-- `to_int_ym` of UA_COMPILER_8_21_25.py. -/
def toIntYm (ym : String) : Int :=
  if ym.data.length = 6 ∧ allDigits ym.data then (natOfDigits ym.data : Int)
  else -1

def pubIdOf (r : PRow) : String := cellStr (r "publication_id")

def pubIntOf (r : PRow) : Int := toIntYm (pubIdOf r)

/-- The stable-sort comparator of `build_last`:
key `(pub_int, publication_id)`. -/
def rowKeyLe (a b : PRow) : Prop :=
  lexLe (pubIntOf a, (pubIdOf a).data) (pubIntOf b, (pubIdOf b).data)

instance decRowKeyLe : DecidableRel rowKeyLe := fun _ _ =>
  inferInstanceAs (Decidable (lexLe _ _))

/-- The fixed non-backfillable columns of `build_last`. -/
def nonBfBase : List String :=
  ["rin", "publication_id", "pub_season", "source_xml", "timetable_all",
   "latest_action_in_issue", "latest_action_date_in_issue"]

/-- The list-like column heuristic of `build_last`. -/
def isListLikeCol (c : String) : Bool :=
  endsWithB c "_list" || c == "contacts" || c == "related_rins"

/-- Membership in the `non_bf` set of `build_last`. -/
def isNonBf (c : String) : Bool := c ∈ nonBfBase || isListLikeCol c

/-- pandas `idxmax` scan: the first element attaining the maximum of the
integer-valued column, in list order. -/
def firstMaxBy {α : Type} (val : α → Int) : List α → Option α
  | [] => none
  | a :: l => some (l.foldl (fun b r => if val b < val r then r else b) a)

/-- The last entry of a forward-filled column (`ffill().iloc[-1]`): the last
non-NaN cell of the column, scanning in order; `ffill` only replaces NaN
cells, never empty strings. -/
def ffillLast (grp : List PRow) (c : String) : Option String :=
  grp.foldl (fun acc r => match r c with | some v => some v | none => acc) none

/-- The composite row built by `build_last` for one RIN group (`grp` in
original ingestion order, already restricted to the requested window):
stable-sort by `(pub_int, publication_id)`; non-backfillable columns come
from the `idxmax` row (`last_rows`); backfillable columns come from the
group's final row, replaced by the forward-filled column value when blank
(`t(str(...)) == ""`); the five `*_last_issue` columns are appended from the
`idxmax` row.  Columns outside the dataframe are NaN. -/
def buildLastRow (cols : List String) (grp : List PRow) : PRow :=
  let sortedG := List.insertionSort rowKeyLe grp
  fun c =>
    match sortedG.getLast?, firstMaxBy pubIntOf sortedG with
    | some lastBf, some cur =>
      if c = "timetable_all_last_issue" then
        some (fillNaEmpty (cur "timetable_all"))
      else if c = "latest_action_last_issue" then
        some (fillNaEmpty (cur "latest_action_in_issue"))
      else if c = "latest_action_date_last_issue" then
        some (fillNaEmpty (cur "latest_action_date_in_issue"))
      else if c = "last_pub_ym" then cur "publication_id"
      else if c = "source_xml_of_last" then cur "source_xml"
      else if c ∈ cols then
        if !(isNonBf c) then
          (if blankCell (lastBf c) then ffillLast sortedG c else lastBf c)
        else cur c
      else none
    | _, _ => none

/-- The optional snapshot window restriction of `build_last` (pandas string
comparison on the `publication_id` column). -/
def windowRows (w : Option (String × String)) (dfRows : List PRow) :
    List PRow :=
  match w with
  | none => dfRows
  | some (s, e) =>
    dfRows.filter (fun r =>
      decide (sLe s (pubIdOf r)) && decide (sLe (pubIdOf r) e))

/-- The rows of one RIN group (pandas `groupby("rin")`). -/
def rinRows (rin : String) (rows : List PRow) : List PRow :=
  rows.filter (fun r => r "rin" == some rin)

/-- `build_last` output row for one identity: window filter, RIN group in
original order, composite row. -/
def buildLastForRin (cols : List String) (dfRows : List PRow)
    (w : Option (String × String)) (rin : String) : PRow :=
  buildLastRow cols (rinRows rin (windowRows w dfRows))

/-! ### `Runs_UA_Compiler.py`: issue keys and the EO_13771 backfill -/

/-- Python `re.sub` deleting every non-digit. -/
def digitsOnly (s : String) : String := ⟨s.data.filter Char.isDigit⟩

/-- `extract_pub_ym_from_filename`: `UA_NAME_RE.match` is anchored at the
start and the pattern ends with an end anchor, so the whole 27-character
basename must be `REGINFO_RIN_DATA_` + six digits + `.xml`,
case-insensitively; the captured group is taken from the original string. -/
def runnerFileYm (base : String) : String :=
  if (pyLower base).data.length = 27 ∧
      (pyLower base).data.take 17 = "reginfo_rin_data_".data ∧
      allDigits (((pyLower base).data.drop 17).take 6) ∧
      (pyLower base).data.drop 23 = ".xml".data then
    ⟨(base.data.drop 17).take 6⟩
  else ""

/-- `to_pub_int` of Runs_UA_Compiler.py. -/
def toPubIntR (ym : String) : Int :=
  let d := digitsOnly (pyStrip ym)
  if d.data.length = 6 then (natOfDigits d.data : Int) else -1

/-- The `_pub_ym` computation of the runner: the digit characters of
PUBLICATION_ID when there are exactly six of them, else the filename-derived
token. -/
def runnerPubYm (pubIdRaw src : String) : String :=
  let csv := digitsOnly pubIdRaw
  if csv.data.length = 6 then csv else runnerFileYm src

/-- One row of the runner's combined dataframe, restricted to the columns the
last-per-RIN reduction reads; every other column is the opaque `others`
function, which the reduction never modifies. -/
structure ERow where
  rin : String
  pubIdRaw : String
  src : String
  eo : String
  others : String → String

/-- `_pub_ym` of a row. -/
def ePubYm (r : ERow) : String := runnerPubYm r.pubIdRaw r.src

/-- `_pub_int` of a row. -/
def ePubInt (r : ERow) : Int := toPubIntR (ePubYm r)

/-- The runner's stable-sort comparator: key `(_pub_int, _row_ordinal)`. -/
def eRowLe (a b : Nat × ERow) : Prop :=
  lexLe (ePubInt a.2, a.1) (ePubInt b.2, b.1)

instance decERowLe : DecidableRel eRowLe := fun _ _ =>
  inferInstanceAs (Decidable (lexLe _ _))

/-- One row of the EO backfill audit log
(`ua_all_last_per_rin_eo13771_backfill_log.csv`). -/
structure EOLog where
  rin : String
  lastPubId : String
  lastSrc : String
  filled : String
  fromYm : String
  fromSrc : String

/-- The last-per-RIN selection with the EO_13771_DESIGNATION backfill of
Runs_UA_Compiler.py, for one RIN: rows are enumerated by their position
(`_row_ordinal`), filtered to the RIN, stably sorted by
`(_pub_int, _row_ordinal)`; the last row is the first scan hit of the
maximal `_pub_int` (pandas `idxmax`); prior candidates are the strictly
earlier rows with a non-blank EO value, of which the latest (the `tail(1)`
of the sorted candidates) supplies the fill when the last row's EO is blank;
each fill produces one audit log row.  Returns the output row and the
optional log entry. -/
def eoLastForRin (rows : List ERow) (rin : String) :
    Option ERow × Option EOLog :=
  match firstMaxBy (fun p => ePubInt p.2)
      (List.insertionSort eRowLe
        (rows.enum.filter (fun p => p.2.rin == rin))) with
  | none => (none, none)
  | some lastP =>
    if pyStrip lastP.2.eo == "" then
      match ((List.insertionSort eRowLe
          (rows.enum.filter (fun p => p.2.rin == rin))).filter
          (fun p => !(pyStrip p.2.eo == "") &&
            decide (ePubInt p.2 < ePubInt lastP.2))).getLast? with
      | some pP =>
        (some { lastP.2 with eo := pP.2.eo },
         some { rin := rin, lastPubId := lastP.2.pubIdRaw,
                lastSrc := lastP.2.src, filled := pP.2.eo,
                fromYm := ePubYm pP.2, fromSrc := pP.2.src })
      | none => (some lastP.2, none)
    else (some lastP.2, none)

/-! ### Derived notions used by the theorems -/

/-- The embedded publication id of an entity element, as `iter_rin_records`
reads it: the PUBLICATION_ID inside the first PUBLICATION element found
outside list containers, or `""`. -/
def embPubIdOf (el : XNode) : String :=
  match firstDescEx el "publication" listContainersC with
  | none => ""
  | some pub => optText (firstDescEx pub "publication_id" [])

/-- The five columns appended by `build_last` after the merge. -/
def lastIssueCols : List String :=
  ["timetable_all_last_issue", "latest_action_last_issue",
   "latest_action_date_last_issue", "last_pub_ym", "source_xml_of_last"]

instance totalTtcKeyLe : IsTotal TTC ttcKeyLe :=
  ⟨fun _ _ => lexLe_total _ _⟩

instance transTtcKeyLe : IsTrans TTC ttcKeyLe :=
  ⟨fun _ _ _ h1 h2 => lexLe_trans h1 h2⟩

instance totalTtpDateLe : IsTotal TTP ttpDateLe :=
  ⟨fun a b => le_total a.dateIso.data b.dateIso.data⟩

instance transTtpDateLe : IsTrans TTP ttpDateLe :=
  ⟨fun _ _ _ h1 h2 => le_trans h1 h2⟩

instance totalRowKeyLe : IsTotal PRow rowKeyLe :=
  ⟨fun _ _ => lexLe_total _ _⟩

instance transRowKeyLe : IsTrans PRow rowKeyLe :=
  ⟨fun _ _ _ h1 h2 => lexLe_trans h1 h2⟩

instance totalERowLe : IsTotal (Nat × ERow) eRowLe :=
  ⟨fun _ _ => lexLe_total _ _⟩

instance transERowLe : IsTrans (Nat × ERow) eRowLe :=
  ⟨fun _ _ _ h1 h2 => lexLe_trans h1 h2⟩

/-! ### Concrete fixtures used by witnesses and counterexamples -/

/-- A dataframe row from an association list (NaN outside its keys). -/
def mkRow (l : List (String × String)) : PRow := fun c => lookupKV l c

/-- Snapshot-199510 row of the backfill example: `agency_name` is EPA, the
scalar leaf `designation` is present. -/
def fixRow95 : PRow := mkRow
  [("rin", "X"), ("publication_id", "199510"), ("pub_season", "Fall"),
   ("source_xml", "REGINFO_RIN_DATA_199510.xml"),
   ("timetable_all", "TT95"), ("latest_action_in_issue", "Proposed"),
   ("latest_action_date_in_issue", "1995-10-01"),
   ("agency_name", "EPA"), ("designation", "D1")]

/-- Snapshot-201810 row of the backfill example: `agency_name` is the empty
string, `designation` is a NaN cell. -/
def fixRow18 : PRow := mkRow
  [("rin", "X"), ("publication_id", "201810"), ("pub_season", "Fall"),
   ("source_xml", "REGINFO_RIN_DATA_201810.xml"),
   ("timetable_all", "TT18"), ("latest_action_in_issue", "Final"),
   ("latest_action_date_in_issue", "2018-10-01"),
   ("agency_name", "")]

/-- Columns of the two-snapshot fixture dataframe. -/
def fixCols : List String :=
  ["rin", "publication_id", "pub_season", "source_xml", "timetable_all",
   "latest_action_in_issue", "latest_action_date_in_issue", "agency_name",
   "designation"]

/-- The two-snapshot fixture dataframe. -/
def fixDf : List PRow := [fixRow95, fixRow18]

/-- Compiler timetable fixture: two same-date events. -/
def fixTts : List TTC :=
  [{ action := "Proposed", dateRaw := "10/01/1995", dateIso := "1995-10-01",
     fr := "" },
   { action := "Final", dateRaw := "10/01/1995", dateIso := "1995-10-01",
     fr := "" }]

/-- Parser timetable fixture: a dated item after an undated one. -/
def fixPts : List TTP :=
  [{ action := "Withdrawn", dateRaw := "TBD", dateIso := "", fr := "" },
   { action := "NPRM", dateRaw := "04/00/1996", dateIso := "1996-04-01",
     fr := "" }]

/-- An entity with a duplicated unknown leaf tag. -/
def fixRi : XNode := XNode.elem "RIN_INFO" ""
  [XNode.elem "RIN" " 2060-AB12 " [],
   XNode.elem "FOO" " v1 " [],
   XNode.elem "FOO" "v2" [],
   XNode.elem "BAR" "" [XNode.elem "BAZ" "x" []]]

/-- A document whose single entity has no RIN child at all. -/
def fixDoc : XNode := XNode.elem "ROOT" ""
  [XNode.elem "RIN_INFO" "" [XNode.elem "RULE_TITLE" "T" []]]

/-- An entity carrying a non-numeric embedded publication id. -/
def fixElPub : XNode := XNode.elem "RIN_INFO" ""
  [XNode.elem "RIN" "2060-AB12" [],
   XNode.elem "PUBLICATION" "" [XNode.elem "PUBLICATION_ID" "XYZ" []]]

/-- Runner fixture rows: an early issue with a designation and a later issue
with a blank one. -/
def fixEoA : ERow :=
  { rin := "X", pubIdRaw := "199510",
    src := "REGINFO_RIN_DATA_199510.xml", eo := "exempt",
    others := fun _ => "oA" }

def fixEoB : ERow :=
  { rin := "X", pubIdRaw := "201810",
    src := "REGINFO_RIN_DATA_201810.xml", eo := "  ",
    others := fun _ => "oB" }

/-! ### Helper lemmas: dict lookups and maximum selections -/

theorem lookupKV_append (k : String) :
    ∀ m m2 : List (String × String),
      lookupKV (m ++ m2) k = (lookupKV m k).or (lookupKV m2 k)
  | [], m2 => by
    rw [List.nil_append]
    cases lookupKV m2 k <;> rfl
  | (a, b) :: t, m2 => by
    by_cases hk : a = k
    · subst hk
      simp [lookupKV]
    · simp only [List.cons_append, lookupKV, if_neg hk]
      exact lookupKV_append k t m2

theorem lookup_map_overwrite (k v : String) :
    ∀ m : List (String × String), (lookupKV m k).isSome →
      lookupKV (m.map (fun p => (p.1, if p.1 = k then v else p.2))) k = some v
  | [], h => by simp [lookupKV] at h
  | (a, b) :: t, h => by
    by_cases hk : a = k
    · subst hk
      simp [lookupKV]
    · simp only [lookupKV, if_neg hk, List.map_cons] at h ⊢
      exact lookup_map_overwrite k v t h

theorem lookupKV_dictSet_self (m : List (String × String)) (k v : String) :
    lookupKV (dictSet m k v) k = some v := by
  unfold dictSet
  split
  case isTrue h => exact lookup_map_overwrite k v m h
  case isFalse h =>
    rw [lookupKV_append]
    cases hx : lookupKV m k with
    | none => simp [lookupKV]
    | some w =>
      rw [hx] at h
      simp at h

theorem lookup_map_overwrite_ne (k k2 v : String) (hk : k ≠ k2) :
    ∀ m : List (String × String),
      lookupKV (m.map (fun p => (p.1, if p.1 = k2 then v else p.2))) k =
        lookupKV m k
  | [] => rfl
  | (a, b) :: t => by
    by_cases hak : a = k
    · subst hak
      simp [lookupKV, if_neg hk]
    · simp only [List.map_cons, lookupKV, if_neg hak]
      exact lookup_map_overwrite_ne k k2 v hk t

theorem lookupKV_dictSet_ne (m : List (String × String)) (k k2 v : String)
    (h : k ≠ k2) : lookupKV (dictSet m k2 v) k = lookupKV m k := by
  unfold dictSet
  split
  case isTrue _ => exact lookup_map_overwrite_ne k k2 v h m
  case isFalse _ =>
    rw [lookupKV_append]
    have h2 : lookupKV [(k2, v)] k = none := by
      simp only [lookupKV, if_neg (Ne.symm h)]
    rw [h2]
    cases lookupKV m k <;> rfl

theorem lookupKV_dictUpdate_none (k : String) :
    ∀ (kvs m : List (String × String)), lookupKV kvs k = none →
      lookupKV (dictUpdate m kvs) k = lookupKV m k
  | [], _, _ => rfl
  | (k1, v1) :: rest, m, h => by
    have hk1 : k1 ≠ k := by
      intro hkk
      simp [lookupKV, hkk] at h
    have hrest : lookupKV rest k = none := by
      simpa [lookupKV, hk1] using h
    show lookupKV (dictUpdate (dictSet m k1 v1) rest) k = lookupKV m k
    rw [lookupKV_dictUpdate_none k rest (dictSet m k1 v1) hrest]
    exact lookupKV_dictSet_ne m k k1 v1 (fun hx => hk1 hx.symm)

theorem foldMax_mem_le {α : Type} (val : α → Int) :
    ∀ (t : List α) (a : α),
      (t.foldl (fun b r => if val b < val r then r else b) a) ∈ a :: t ∧
        ∀ x ∈ a :: t,
          val x ≤ val (t.foldl (fun b r => if val b < val r then r else b) a)
  | [], a => by
    constructor
    · exact List.mem_singleton_self a
    · intro x hx
      rw [List.mem_singleton] at hx
      subst hx
      exact le_refl _
  | r :: t', a => by
    simp only [List.foldl_cons]
    rcases foldMax_mem_le val t' (if val a < val r then r else a) with ⟨hmem, hle⟩
    have hacc : val a ≤ val (if val a < val r then r else a) ∧
        val r ≤ val (if val a < val r then r else a) := by
      split
      case isTrue hlt => exact ⟨le_of_lt hlt, le_refl _⟩
      case isFalse hge => exact ⟨le_refl _, le_of_not_lt hge⟩
    constructor
    · rcases List.mem_cons.mp hmem with heq | hmem'
      · rw [heq]
        split
        · exact List.mem_cons_of_mem _ (List.mem_cons_self _ _)
        · exact List.mem_cons_self _ _
      · exact List.mem_cons_of_mem _ (List.mem_cons_of_mem _ hmem')
    · intro x hx
      have haccle : val (if val a < val r then r else a) ≤
          val (t'.foldl (fun b r => if val b < val r then r else b)
            (if val a < val r then r else a)) :=
        hle _ (List.mem_cons_self _ _)
      rcases List.mem_cons.mp hx with rfl | hx'
      · exact le_trans hacc.1 haccle
      · rcases List.mem_cons.mp hx' with rfl | hx''
        · exact le_trans hacc.2 haccle
        · exact hle x (List.mem_cons_of_mem _ hx'')

theorem firstMaxBy_spec {α : Type} (val : α → Int) {l : List α}
    (hl : l ≠ []) :
    ∃ m, firstMaxBy val l = some m ∧ m ∈ l ∧ ∀ x ∈ l, val x ≤ val m := by
  cases l with
  | nil => exact absurd rfl hl
  | cons a t =>
    exact ⟨_, rfl, (foldMax_mem_le val t a).1, (foldMax_mem_le val t a).2⟩

theorem foldMax_first {α : Type} (val : α → Int) :
    ∀ (t : List α) (a : α), ∃ l1 l2,
      a :: t = l1 ++
        (t.foldl (fun b r => if val b < val r then r else b) a) :: l2 ∧
      ∀ x ∈ l1,
        val x < val (t.foldl (fun b r => if val b < val r then r else b) a)
  | [], a => ⟨[], [], rfl, by intro x hx; cases hx⟩
  | r :: t', a => by
    simp only [List.foldl_cons]
    by_cases hlt : val a < val r
    · rw [if_pos hlt]
      rcases foldMax_first val t' r with ⟨l1', l2', hdec, hstrict⟩
      refine ⟨a :: l1', l2', ?_, ?_⟩
      · rw [List.cons_append, ← hdec]
      · intro x hx
        rcases List.mem_cons.mp hx with rfl | hx'
        · cases l1' with
          | nil =>
            rw [List.nil_append] at hdec
            injection hdec with heq hteq
            rw [← heq]
            exact hlt
          | cons h1 t1 =>
            rw [List.cons_append] at hdec
            injection hdec with heq hteq
            have hr := hstrict h1 (List.mem_cons_self _ _)
            rw [← heq] at hr
            exact lt_trans hlt hr
        · exact hstrict x hx'
    · rw [if_neg hlt]
      rcases foldMax_first val t' a with ⟨l1', l2', hdec, hstrict⟩
      cases l1' with
      | nil =>
        rw [List.nil_append] at hdec
        injection hdec with heq hteq
        refine ⟨[], r :: t', ?_, ?_⟩
        · rw [List.nil_append, ← heq]
        · intro x hx
          cases hx
      | cons h1 t1 =>
        rw [List.cons_append] at hdec
        injection hdec with heq hteq
        refine ⟨a :: r :: t1, l2', ?_, ?_⟩
        · rw [List.cons_append, List.cons_append]
          conv_lhs => rw [hteq]
        · intro x hx
          have ham := hstrict h1 (List.mem_cons_self _ _)
          rw [← heq] at ham
          rcases List.mem_cons.mp hx with rfl | hx'
          · exact ham
          · rcases List.mem_cons.mp hx' with rfl | hx''
            · exact lt_of_le_of_lt (le_of_not_lt hlt) ham
            · exact hstrict x (List.mem_cons_of_mem _ hx'')

theorem firstMaxBy_first {α : Type} (val : α → Int) {l : List α} {m : α}
    (h : firstMaxBy val l = some m) :
    ∃ l1 l2, l = l1 ++ m :: l2 ∧ ∀ x ∈ l1, val x < val m := by
  cases l with
  | nil => cases h
  | cons a t =>
    have hm : t.foldl (fun b r => if val b < val r then r else b) a = m := by
      simpa [firstMaxBy] using h
    rcases foldMax_first val t a with ⟨l1, l2, hdec, hstrict⟩
    rw [hm] at hdec hstrict
    exact ⟨l1, l2, hdec, hstrict⟩

/-- In a sorted list, the `idxmax` pick relates to every later element
attaining the same maximum. -/
theorem firstMaxBy_tie_rel {α : Type} (val : α → Int) {le : α → α → Prop}
    {l : List α} {m : α} (hs : l.Sorted le) (h : firstMaxBy val l = some m)
    (q : α) (hq : q ∈ l) (heq : val q = val m) : q = m ∨ le m q := by
  rcases firstMaxBy_first val h with ⟨l1, l2, hdec, hstrict⟩
  subst hdec
  rcases List.mem_append.mp hq with h1 | h2
  · exact absurd heq (ne_of_lt (hstrict q h1))
  · rcases List.mem_cons.mp h2 with rfl | h2'
    · exact Or.inl rfl
    · exact Or.inr
        (List.rel_of_sorted_cons (List.pairwise_append.mp hs).2.1 q h2')

/-! ### Behaviour of `_to_bool` -/

theorem toBoolPy_spec (vv : String) :
    (pyLower (pyStrip vv) ∈ boolTrueTokens → toBoolPy (some vv) = some true) ∧
    (pyLower (pyStrip vv) ∈ boolFalseTokens →
      toBoolPy (some vv) = some false) ∧
    (pyLower (pyStrip vv) ∉ boolTrueTokens →
      pyLower (pyStrip vv) ∉ boolFalseTokens → toBoolPy (some vv) = none) := by
  have hred : toBoolPy (some vv) =
      (if pyLower (pyStrip vv) ∈ boolTrueTokens then some true
       else if pyLower (pyStrip vv) ∈ boolFalseTokens then some false
       else none) := rfl
  refine ⟨?_, ?_, ?_⟩
  · intro ht
    rw [hred, if_pos ht]
  · intro hf
    have hnt : pyLower (pyStrip vv) ∉ boolTrueTokens := by
      simp only [boolFalseTokens, List.mem_cons, List.not_mem_nil,
        or_false] at hf
      rcases hf with h1 | h1 | h1 | h1 | h1 <;> rw [h1] <;> decide
    rw [hred, if_neg hnt, if_pos hf]
  · intro hnt hnf
    rw [hred, if_neg hnt, if_neg hnf]

/-- C8: the tri-state boolean normalizer returns `true` for every input whose
cleaned form is, case-insensitively, one of the truthy tokens yes/y/true/t/1;
`false` for the falsy tokens no/n/false/f/0; the cleaned original string for
any other non-empty input; and none for empty or missing input.  The HTML
entity decoder used by the cleaning step is universally quantified. -/
theorem c8_tri_state_normalizer (unesc : String → String) (v : Option String) :
    (cleanText unesc v = none → normalizeTriState unesc v = Tri.noneV) ∧
    (∀ vv, cleanText unesc v = some vv →
      ((pyLower (pyStrip vv) ∈ boolTrueTokens →
          normalizeTriState unesc v = Tri.boolV true) ∧
       (pyLower (pyStrip vv) ∈ boolFalseTokens →
          normalizeTriState unesc v = Tri.boolV false) ∧
       (pyLower (pyStrip vv) ∉ boolTrueTokens →
        pyLower (pyStrip vv) ∉ boolFalseTokens →
          normalizeTriState unesc v = Tri.strV vv))) := by
  have hred : ∀ vv, cleanText unesc v = some vv →
      normalizeTriState unesc v =
        (match toBoolPy (some vv) with
         | some b => Tri.boolV b
         | none => Tri.strV vv) := by
    intro vv hv
    unfold normalizeTriState
    rw [hv]
  constructor
  · intro h
    unfold normalizeTriState
    rw [h]
  · intro vv h
    refine ⟨?_, ?_, ?_⟩
    · intro ht
      rw [hred vv h, (toBoolPy_spec vv).1 ht]
    · intro hf
      rw [hred vv h, (toBoolPy_spec vv).2.1 hf]
    · intro hnt hnf
      rw [hred vv h, (toBoolPy_spec vv).2.2 hnt hnf]

/-- Witness for C8 at the spec's own test vectors. -/
theorem c8_tri_state_normalizer_witness :
    normalizeTriState id (some "Yes") = Tri.boolV true ∧
    normalizeTriState id (some "Undetermined") = Tri.strV "Undetermined" ∧
    normalizeTriState id (some "") = Tri.noneV ∧
    normalizeTriState id none = Tri.noneV :=
  ⟨((c8_tri_state_normalizer id (some "Yes")).2 "Yes" (by decide)).1
      (by decide),
   ((c8_tri_state_normalizer id (some "Undetermined")).2 "Undetermined"
      (by decide)).2.2 (by decide) (by decide),
   (c8_tri_state_normalizer id (some "")).1 (by decide),
   (c8_tri_state_normalizer id none).1 (by decide)⟩


/-! ### C4: partial-date and tabular date normalization -/

theorem digitVal_le_nine {c : Char} (h : c.isDigit = true) : digitVal c ≤ 9 := by
  have h2 : 48 ≤ c.toNat ∧ c.toNat ≤ 57 := by simpa [Char.isDigit] using h
  unfold digitVal
  omega

theorem matchMMDDYYYY_bounds {s : String} {mm dd yy : Nat}
    (h : matchMMDDYYYY s = some (mm, dd, yy)) :
    mm ≤ 99 ∧ dd ≤ 99 ∧ yy ≤ 9999 := by
  unfold matchMMDDYYYY at h
  split at h
  case h_2 => cases h
  case h_1 m1 m2 s1 d1 d2 s2 y1 y2 y3 y4 =>
    split at h
    case isFalse => cases h
    case isTrue hcond =>
      simp only [Bool.and_eq_true] at hcond
      obtain ⟨⟨⟨⟨⟨⟨⟨⟨⟨hm1, hm2⟩, _⟩, hd1⟩, hd2⟩, _⟩, hy1⟩, hy2⟩, hy3⟩, hy4⟩ :=
        hcond
      simp only [Option.some.injEq, Prod.mk.injEq] at h
      obtain ⟨h1, h2, h3⟩ := h
      have b1 := digitVal_le_nine hm1
      have b2 := digitVal_le_nine hm2
      have b3 := digitVal_le_nine hd1
      have b4 := digitVal_le_nine hd2
      have b5 := digitVal_le_nine hy1
      have b6 := digitVal_le_nine hy2
      have b7 := digitVal_le_nine hy3
      have b8 := digitVal_le_nine hy4
      refine ⟨?_, ?_, ?_⟩
      · rw [← h1]
        simp only [natOfDigits, List.foldl]
        omega
      · rw [← h2]
        simp only [natOfDigits, List.foldl]
        omega
      · rw [← h3]
        simp only [natOfDigits, List.foldl]
        omega

theorem one_le_daysInMonth (y m : Nat) : 1 ≤ daysInMonth y m := by
  unfold daysInMonth
  split
  · split <;> omega
  · split <;> omega

/-- C4 (amended): the partial-date normalizer behaves exactly as the claim
states (00/00/YYYY and empty input give the unknown result; MM/00/YYYY with a
valid month anchors to the first of the month with precision month; a valid
calendar MM/DD/YYYY gives day precision; every calendar-invalid value gives
the unknown result; nothing outside the strict two-two-four digit shape is
accepted).  The tabular normalizer `_parse_tt_date`, however, validates only
the month range 1..12 and rewrites a 00 day to 01: on any matching
MM/DD/YYYY input with a valid month it emits the zero-padded composite date
without calendar validation of the day. -/
theorem c4_amended_date_normalizers :
    (parsePartialDate none = (none, "unknown") ∧
     parsePartialDate (some "") = (none, "unknown")) ∧
    (∀ s, matchMMDDYYYY (pyStrip s) = none →
      parsePartialDate (some s) = (none, "unknown")) ∧
    (∀ s mm dd yy, matchMMDDYYYY (pyStrip s) = some (mm, dd, yy) →
      ((mm = 0 ∧ dd = 0 → parsePartialDate (some s) = (none, "unknown")) ∧
       (dd = 0 → 1 ≤ mm → mm ≤ 12 → 1 ≤ yy →
         parsePartialDate (some s) = (some (yy, mm, 1), "month")) ∧
       (dd = 0 → mm = 0 ∨ 13 ≤ mm ∨ yy = 0 →
         parsePartialDate (some s) = (none, "unknown")) ∧
       (dd ≠ 0 → validYMD yy mm dd = true →
         parsePartialDate (some s) = (some (yy, mm, dd), "day")) ∧
       (dd ≠ 0 → validYMD yy mm dd = false →
         parsePartialDate (some s) = (none, "unknown")))) ∧
    (∀ s mm dd yy, matchTT3 (pyStrip s) = some (mm, dd, yy) →
      startsWithB (pyLower (pyStrip s)) "to be" = false →
      parseTtDateS s =
        (if 1 ≤ mm ∧ mm ≤ 12 then isoYMD yy mm (if dd = 0 then 1 else dd)
         else "")) := by
  refine ⟨⟨by decide, by decide⟩, ?_, ?_, ?_⟩
  · intro s hm
    show parsePartialDateS s = (none, "unknown")
    unfold parsePartialDateS
    by_cases hs : s = ""
    · rw [if_pos hs]
    · rw [if_neg hs, hm]
  · intro s mm dd yy hm
    have hs : ¬ s = "" := by
      intro hs
      rw [hs] at hm
      exact Option.noConfusion ((by decide : matchMMDDYYYY (pyStrip "") = none) ▸ hm)
    have hbounds := matchMMDDYYYY_bounds hm
    have hred : parsePartialDate (some s) =
        (if mm = 0 ∧ dd = 0 then (none, "unknown")
         else if dd = 0 then
           (if validYMD yy mm 1 then (some (yy, mm, 1), "month")
            else (none, "unknown"))
         else
           (if validYMD yy mm dd then (some (yy, mm, dd), "day")
            else (none, "unknown"))) := by
      show parsePartialDateS s = _
      unfold parsePartialDateS
      rw [if_neg hs, hm]
    refine ⟨?_, ?_, ?_, ?_, ?_⟩
    · intro hz
      rw [hred, if_pos hz]
    · intro hdz hm1 hm2 hy1
      have hnz : ¬ (mm = 0 ∧ dd = 0) := by omega
      have hv : validYMD yy mm 1 = true := by
        have hdm := one_le_daysInMonth yy mm
        simp only [validYMD, Bool.and_eq_true, decide_eq_true_eq]
        omega
      rw [hred, if_neg hnz, if_pos hdz, if_pos hv]
    · intro hdz hbad
      by_cases hz : mm = 0 ∧ dd = 0
      · rw [hred, if_pos hz]
      · have hv : validYMD yy mm 1 = false := by
          simp only [validYMD]
          simp only [Bool.and_eq_false_iff, decide_eq_false_iff_not]
          omega
        rw [hred, if_neg hz, if_pos hdz, hv]
        simp
    · intro hdz hv
      have hnz : ¬ (mm = 0 ∧ dd = 0) := by
        intro hz
        exact hdz hz.2
      rw [hred, if_neg hnz, if_neg hdz, if_pos hv]
    · intro hdz hv
      have hnz : ¬ (mm = 0 ∧ dd = 0) := by
        intro hz
        exact hdz hz.2
      rw [hred, if_neg hnz, if_neg hdz, hv]
      simp
  · intro s mm dd yy hm hnb
    have hs : ¬ pyStrip s = "" := by
      intro hs
      rw [hs] at hm
      exact Option.noConfusion ((by decide : matchTT3 "" = none) ▸ hm)
    unfold parseTtDateS
    rw [if_neg hs, hnb, hm]
    simp

/-- Counterexample to C4 as stated: the tabular date normalizer emits a
calendar-invalid composite for 02/30/1996 instead of the empty result that
the partial-date normalizer (correctly) produces. -/
theorem c4_counterexample :
    parseTtDateS "02/30/1996" = "1996-02-30" ∧
    parsePartialDate (some "02/30/1996") = (none, "unknown") ∧
    ("1996-02-30" : String) ≠ "" := by
  refine ⟨by decide, by decide, by decide⟩

/-- Witness for C4 at the spec test vectors. -/
theorem c4_amended_date_normalizers_witness :
    parsePartialDate (some "04/00/1996") = (some (1996, 4, 1), "month") ∧
    parsePartialDate (some "00/00/1996") = (none, "unknown") ∧
    parsePartialDate (some "02/30/1996") = (none, "unknown") ∧
    parsePartialDate (some "04/15/1996") = (some (1996, 4, 15), "day") ∧
    parseTtDateS "02/30/1996" = "1996-02-30" :=
  ⟨((c4_amended_date_normalizers.2.2.1 "04/00/1996" 4 0 1996 (by decide)).2.1
      (by decide) (by decide) (by decide) (by decide)),
   ((c4_amended_date_normalizers.2.2.1 "00/00/1996" 0 0 1996 (by decide)).1
      (by decide)),
   ((c4_amended_date_normalizers.2.2.1 "02/30/1996" 2 30 1996
      (by decide)).2.2.2.2 (by decide) (by decide)),
   ((c4_amended_date_normalizers.2.2.1 "04/15/1996" 4 15 1996
      (by decide)).2.2.2.1 (by decide) (by decide)),
   (by
     rw [c4_amended_date_normalizers.2.2.2 "02/30/1996" 2 30 1996 (by decide)
       (by decide)]
     decide)⟩



/-! ### C2: latest-event derivation -/

theorem latestInIssue_eval (a : TTC) (t : List TTC) {y : TTC}
    (hy : (List.insertionSort ttcKeyLe (a :: t)).getLast? = some y) :
    latestInIssue (a :: t) = (y.dateIso, y.action) := by
  show (match (List.insertionSort ttcKeyLe (a :: t)).getLast? with
        | some lastIt => (lastIt.dateIso, lastIt.action)
        | none => ("", "")) = (y.dateIso, y.action)
  rw [hy]

theorem latestSingleXml_eval (a : TTP) (t : List TTP) (w : List TTP)
    (hwc : (a :: t).filter (fun it => !(it.dateIso == "")) = w) (hne : w ≠ []) :
    latestSingleXml (a :: t) =
      (match (List.insertionSort ttpDateLe w).getLast? with
       | some lastIt => (lastIt.action, lastIt.dateIso)
       | none => ("", "")) := by
  show (match (a :: t).filter (fun it => !(it.dateIso == "")) with
        | [] => ("", "")
        | withIso =>
          match (List.insertionSort ttpDateLe withIso).getLast? with
          | some lastIt => (lastIt.action, lastIt.dateIso)
          | none => ("", "")) = _
  rw [hwc]
  cases w with
  | nil => exact absurd rfl hne
  | cons b u => rfl

theorem ttcKeyLe_refl (x : TTC) : ttcKeyLe x x := lexLe_refl _

theorem ttpDateLe_refl (x : TTP) : ttpDateLe x x := le_refl _

theorem insertionSort_ne_nil {α : Type} (r : α → α → Prop) [DecidableRel r]
    {l : List α} (hl : l ≠ []) : List.insertionSort r l ≠ [] := by
  intro h
  have hlen := (List.perm_insertionSort r l).length_eq
  rw [h] at hlen
  cases l with
  | nil => exact hl rfl
  | cons a t => simp at hlen

/-- C2 (amended): in the combined compiler (`iter_rin_records`) the derived
latest-event pair is the `(date_iso, action)` of an element of the full
timetable list that is maximal under the Python tuple order
`(date_iso, action)` — empty dates are NOT filtered out, so when no item has
a date the derived action is the action sorting last, not the empty string.
In the single-XML parser (`_parse_rin_info`) the items are filtered to
non-empty normalized dates (yielding the empty pair when none remain) and
the chosen item has a maximal date, but the sort key is the date alone
(stable), so same-date ties keep source order instead of the
action-label tie-break. -/
theorem c2_amended_latest_event :
    (∀ tts : List TTC, tts ≠ [] →
      ∃ sel ∈ tts, latestInIssue tts = (sel.dateIso, sel.action) ∧
        ∀ it ∈ tts, ttcKeyLe it sel) ∧
    (∀ pts : List TTP,
      ((∀ it ∈ pts, it.dateIso = "") → latestSingleXml pts = ("", "")) ∧
      (∀ it0 ∈ pts, it0.dateIso ≠ "" →
        ∃ sel ∈ pts, sel.dateIso ≠ "" ∧
          latestSingleXml pts = (sel.action, sel.dateIso) ∧
          ∀ it ∈ pts, it.dateIso ≠ "" → sLe it.dateIso sel.dateIso)) := by
  constructor
  · intro tts hne
    cases tts with
    | nil => exact absurd rfl hne
    | cons a t =>
      have hsne := insertionSort_ne_nil ttcKeyLe (l := a :: t) (by simp)
      obtain ⟨y, hy⟩ : ∃ y, (List.insertionSort ttcKeyLe (a :: t)).getLast? = some y :=
        ⟨_, List.getLast?_eq_getLast _ hsne⟩
      refine ⟨y, mem_insertionSort.mp (List.mem_of_mem_getLast? hy),
        latestInIssue_eval a t hy, ?_⟩
      intro it hit
      exact sorted_rel_getLast? ttcKeyLe_refl
        (List.sorted_insertionSort ttcKeyLe (a :: t)) hy it
        (mem_insertionSort.mpr hit)
  · intro pts
    constructor
    · intro hall
      cases pts with
      | nil => rfl
      | cons a t =>
        have hfil : (a :: t).filter (fun it => !(it.dateIso == "")) = [] := by
          rw [List.filter_eq_nil_iff]
          intro it hit
          simp [hall it hit]
        show (match (a :: t).filter (fun it => !(it.dateIso == "")) with
              | [] => ("", "")
              | withIso =>
                match (List.insertionSort ttpDateLe withIso).getLast? with
                | some lastIt => (lastIt.action, lastIt.dateIso)
                | none => ("", "")) = ("", "")
        rw [hfil]
    · intro it0 hit0 hne0
      cases pts with
      | nil => cases hit0
      | cons a t =>
        have hfil_ne : (a :: t).filter (fun it => !(it.dateIso == "")) ≠ [] := by
          intro h
          rw [List.filter_eq_nil_iff] at h
          exact h it0 hit0 (by simp [hne0])
        have hsne := insertionSort_ne_nil ttpDateLe hfil_ne
        obtain ⟨y, hy⟩ : ∃ y, (List.insertionSort ttpDateLe
            ((a :: t).filter (fun it => !(it.dateIso == "")))).getLast? = some y :=
          ⟨_, List.getLast?_eq_getLast _ hsne⟩
        have hyfil := mem_insertionSort.mp (List.mem_of_mem_getLast? hy)
        have hyp := List.mem_filter.mp hyfil
        refine ⟨y, hyp.1, by simpa using hyp.2, ?_, ?_⟩
        · rw [latestSingleXml_eval a t _ rfl hfil_ne, hy]
        · intro it hit hitne
          have hitfil : it ∈ (a :: t).filter (fun it => !(it.dateIso == "")) :=
            List.mem_filter.mpr ⟨hit, by simp [hitne]⟩
          exact sorted_rel_getLast? ttpDateLe_refl
            (List.sorted_insertionSort ttpDateLe _) hy it
            (mem_insertionSort.mpr hitfil)

/-- Counterexample to C2 as stated: (i) with a timetable whose only item has
no normalized date, the compiler's derived pair carries the item's action
instead of being empty; (ii) with two same-date items, the single-XML parser
picks the item last in source order ("A"), not the lexicographically-last
action label ("B"). -/
theorem c2_counterexample :
    latestInIssue [⟨"Withdrawn", "TBD", "", ""⟩] = ("", "Withdrawn") ∧
    ("Withdrawn" : String) ≠ "" ∧
    latestSingleXml
      [⟨"B", "01/01/1996", "1996-01-01", ""⟩,
       ⟨"A", "01/01/1996", "1996-01-01", ""⟩] = ("A", "1996-01-01") := by
  refine ⟨by decide, by decide, by decide⟩

/-- Witness for C2 on concrete timetables. -/
theorem c2_amended_latest_event_witness :
    (∃ sel ∈ fixTts, latestInIssue fixTts = (sel.dateIso, sel.action) ∧
      ∀ it ∈ fixTts, ttcKeyLe it sel) ∧
    (∃ sel ∈ fixPts, sel.dateIso ≠ "" ∧
      latestSingleXml fixPts = (sel.action, sel.dateIso) ∧
      ∀ it ∈ fixPts, it.dateIso ≠ "" → sLe it.dateIso sel.dateIso) :=
  ⟨c2_amended_latest_event.1 fixTts (by decide),
   (c2_amended_latest_event.2 fixPts).2
     ⟨"NPRM", "04/00/1996", "1996-04-01", ""⟩ (by decide) (by decide)⟩



/-! ### C10: auto-capture of unrecognized scalar leaves -/

/-- The capture predicate of the auto-capture loop: an immediate child is a
candidate for key `k` iff it is a leaf, its local tag is outside the known
set, and its upper-cased tag is `k`. -/
def capturePred (known : List String) (k : String) (ch : XNode) : Bool :=
  ch.children.isEmpty && !(decide (lnameStr ch.tag ∈ known)) &&
    (pyUpper (lnameStr ch.tag) == k)

theorem autoCapture_lookup (known : List String) (k : String) :
    ∀ (cs : List XNode) (out : List (String × String)),
      lookupKV (autoCapture known out cs) k =
        (lookupKV out k).or
          ((cs.find? (capturePred known k)).map (fun ch => pyStrip ch.text))
  | [], out => by
    show lookupKV out k = (lookupKV out k).or none
    cases lookupKV out k <;> rfl
  | ch :: rest, out => by
    show lookupKV
        (if lnameStr ch.tag ∈ known then autoCapture known out rest
         else if ch.children.isEmpty then
           (if (lookupKV out (pyUpper (lnameStr ch.tag))).isSome then
              autoCapture known out rest
            else autoCapture known
              (out ++ [(pyUpper (lnameStr ch.tag), pyStrip ch.text)]) rest)
         else autoCapture known out rest) k = _
    by_cases hk : lnameStr ch.tag ∈ known
    · rw [if_pos hk, autoCapture_lookup known k rest out,
        List.find?_cons_of_neg _ (by simp [capturePred, hk])]
    · rw [if_neg hk]
      by_cases hleaf : ch.children.isEmpty
      · rw [if_pos hleaf]
        by_cases hkey : pyUpper (lnameStr ch.tag) = k
        · rw [hkey]
          have hpred : capturePred known k ch = true := by
            simp [capturePred, hk, hleaf, hkey]
          rw [List.find?_cons_of_pos _ hpred]
          by_cases hout : (lookupKV out k).isSome
          · rw [if_pos hout, autoCapture_lookup known k rest out]
            obtain ⟨v, hv⟩ := Option.isSome_iff_exists.mp hout
            rw [hv]
            rfl
          · rw [if_neg hout, autoCapture_lookup known k rest _]
            have hno : lookupKV out k = none := by
              cases hx : lookupKV out k
              · rfl
              · rw [hx] at hout
                simp at hout
            rw [lookupKV_append, hno, lookupKV, if_pos rfl]
            rfl
        · rw [List.find?_cons_of_neg _ (by simp [capturePred, hkey])]
          by_cases hout : (lookupKV out (pyUpper (lnameStr ch.tag))).isSome
          · rw [if_pos hout, autoCapture_lookup known k rest out]
          · rw [if_neg hout, autoCapture_lookup known k rest _,
              lookupKV_append]
            have h2 : lookupKV [(pyUpper (lnameStr ch.tag),
                pyStrip ch.text)] k = none := by
              simp only [lookupKV, if_neg hkey]
            rw [h2]
            cases lookupKV out k <;> rfl
      · rw [if_neg hleaf, autoCapture_lookup known k rest out,
          List.find?_cons_of_neg _ (by simp [capturePred, hleaf])]

/-- C10: in the single-XML flattener's auto-capture step, a key already
populated by the explicit extraction is never overwritten, and a key not
produced by the explicit extraction holds exactly the stripped text of the
FIRST immediate leaf child whose local tag is outside the known set and
upper-cases to that key (or stays absent when there is no such child). -/
theorem c10_auto_capture (ri : XNode) (k : String) :
    (∀ v, lookupKV (parseRinInfoBase ri) k = some v →
      lookupKV (parseRinInfo ri) k = some v) ∧
    (lookupKV (parseRinInfoBase ri) k = none →
      lookupKV (parseRinInfo ri) k =
        (ri.children.find? (capturePred knownGroupsL1 k)).map
          (fun ch => pyStrip ch.text)) := by
  have h := autoCapture_lookup knownGroupsL1 k ri.children (parseRinInfoBase ri)
  constructor
  · intro v hv
    show lookupKV
      (autoCapture knownGroupsL1 (parseRinInfoBase ri) ri.children) k = some v
    rw [h, hv]
    rfl
  · intro hnone
    show lookupKV
        (autoCapture knownGroupsL1 (parseRinInfoBase ri) ri.children) k = _
    rw [h, hnone]
    rfl

/-- Witness for C10: the duplicated unknown leaf FOO is captured once with
its first occurrence, the explicitly-extracted RIN key is untouched, and the
non-leaf unknown child BAR is not captured. -/
theorem c10_auto_capture_witness :
    lookupKV (parseRinInfoBase fixRi) "FOO" = none ∧
    lookupKV (parseRinInfo fixRi) "FOO" = some "v1" ∧
    lookupKV (parseRinInfo fixRi) "BAR" = none ∧
    lookupKV (parseRinInfo fixRi) "RIN" = some "2060-AB12" :=
  ⟨by decide,
   by rw [(c10_auto_capture fixRi "FOO").2 (by decide)]; decide,
   by rw [(c10_auto_capture fixRi "BAR").2 (by decide)]; decide,
   (c10_auto_capture fixRi "RIN").1 "2060-AB12" (by decide)⟩



/-! ### Key-tracking lemmas for the compiler record pipeline -/

theorem lookupKV_eq_none_of_forall {m : List (String × String)} {k : String}
    (h : ∀ p ∈ m, p.1 ≠ k) : lookupKV m k = none := by
  induction m with
  | nil => rfl
  | cons p t ih =>
    obtain ⟨a, b⟩ := p
    show (if a = k then some b else lookupKV t k) = none
    rw [if_neg (h (a, b) (List.mem_cons_self _ _))]
    exact ih (fun q hq => h q (List.mem_cons_of_mem _ hq))

theorem dictSet_keys {m : List (String × String)} {k v : String} :
    ∀ p ∈ dictSet m k v, p.1 = k ∨ ∃ q ∈ m, p.1 = q.1 := by
  intro p hp
  unfold dictSet at hp
  split at hp
  · obtain ⟨q, hq, hfq⟩ := List.mem_map.mp hp
    right
    exact ⟨q, hq, by rw [← hfq]⟩
  · rcases List.mem_append.mp hp with h1 | h2
    · right
      exact ⟨p, h1, rfl⟩
    · left
      simp only [List.mem_singleton] at h2
      rw [h2]

theorem dictSet_keys_ne {m : List (String × String)} {k v kk : String}
    (hm : ∀ q ∈ m, q.1 ≠ kk) (hk : k ≠ kk) :
    ∀ p ∈ dictSet m k v, p.1 ≠ kk := by
  intro p hp
  rcases dictSet_keys p hp with h | ⟨q, hq, heq⟩
  · rw [h]
    exact hk
  · rw [heq]
    exact hm q hq

theorem lookup_extractPublication_ne (el : XNode) (k : String)
    (h1 : k ≠ "publication_id") (h2 : k ≠ "publication_title") :
    lookupKV (extractPublicationC el) k = none := by
  apply lookupKV_eq_none_of_forall
  intro p hp
  unfold extractPublicationC at hp
  split at hp
  · cases hp
  · rcases List.mem_cons.mp hp with h | h
    · rw [h]
      exact Ne.symm h1
    · rw [List.mem_singleton.mp h]
      exact Ne.symm h2

theorem agencyBaseKeysNe (b k : String)
    (h1 : k ≠ b ++ "_name") (h2 : k ≠ b ++ "_code")
    (h3 : k ≠ b ++ "_acronym") :
    ∀ q ∈ [(b ++ "_name", ""), (b ++ "_code", ""), (b ++ "_acronym", "")],
      q.1 ≠ k := by
  intro q hq
  rcases List.mem_cons.mp hq with h | h
  · rw [h]
    exact Ne.symm h1
  · rcases List.mem_cons.mp h with hh | hh
    · rw [hh]
      exact Ne.symm h2
    · rw [List.mem_singleton.mp hh]
      exact Ne.symm h3

theorem agencyChainKeysNe (b k nv v1 v2 v3 : String)
    (h1 : k ≠ b ++ "_name") (h2 : k ≠ b ++ "_code")
    (h3 : k ≠ b ++ "_acronym") (h4 : k ≠ "agency")
    (h5 : k ≠ "parent_agency") :
    ∀ p ∈ (if b == "agency" then
        dictSet (dictSet (dictSet (dictSet [(b ++ "_name", ""),
          (b ++ "_code", ""), (b ++ "_acronym", "")] (b ++ "_code") v1)
          (b ++ "_name") v2) (b ++ "_acronym") v3) "agency" nv
      else if b == "parent_agency" then
        dictSet (dictSet (dictSet (dictSet [(b ++ "_name", ""),
          (b ++ "_code", ""), (b ++ "_acronym", "")] (b ++ "_code") v1)
          (b ++ "_name") v2) (b ++ "_acronym") v3) "parent_agency" nv
      else dictSet (dictSet (dictSet [(b ++ "_name", ""),
          (b ++ "_code", ""), (b ++ "_acronym", "")] (b ++ "_code") v1)
          (b ++ "_name") v2) (b ++ "_acronym") v3), p.1 ≠ k := by
  have hm3 : ∀ q ∈ dictSet (dictSet (dictSet [(b ++ "_name", ""),
      (b ++ "_code", ""), (b ++ "_acronym", "")] (b ++ "_code") v1)
      (b ++ "_name") v2) (b ++ "_acronym") v3, q.1 ≠ k :=
    dictSet_keys_ne (dictSet_keys_ne (dictSet_keys_ne
      (agencyBaseKeysNe b k h1 h2 h3) (Ne.symm h2)) (Ne.symm h1))
      (Ne.symm h3)
  split
  · exact dictSet_keys_ne hm3 (Ne.symm h4)
  · split
    · exact dictSet_keys_ne hm3 (Ne.symm h5)
    · exact hm3

theorem lookup_extractAgency_ne (el : XNode) (b k : String)
    (h1 : k ≠ b ++ "_name") (h2 : k ≠ b ++ "_code")
    (h3 : k ≠ b ++ "_acronym") (h4 : k ≠ "agency")
    (h5 : k ≠ "parent_agency") :
    lookupKV (extractAgencyBlockC el b) k = none := by
  apply lookupKV_eq_none_of_forall
  intro p hp
  unfold extractAgencyBlockC at hp
  split at hp
  · exact agencyBaseKeysNe b k h1 h2 h3 p hp
  · exact agencyChainKeysNe b k _ _ _ _ h1 h2 h3 h4 h5 p hp

theorem lookup_pubIdStep_ne (xmlBase : String) (m : List (String × String))
    (k : String) (h : k ≠ "publication_id") :
    lookupKV (pubIdStep xmlBase m) k = lookupKV m k := by
  unfold pubIdStep
  split
  · exact lookupKV_dictSet_ne m k _ _ h
  · rfl

theorem lookup_seasonStep_ne (m : List (String × String)) (k : String)
    (h : k ≠ "pub_season") : lookupKV (seasonStep m) k = lookupKV m k :=
  lookupKV_dictSet_ne m k _ _ h

/-- Any key outside the columns written after the publication steps reads
through the whole `iter_rin_records` pipeline down to the publication
steps. -/
theorem iterRinRecord_lookup_chain (fuzzy : String → Option String)
    (xmlBase : String) (el : XNode) (k : String)
    (hscl : lookupKV (collectScalarLeaves el) k = none)
    (h1 : k ≠ "latest_action_in_issue")
    (h2 : k ≠ "latest_action_date_in_issue")
    (h3 : k ≠ "timetable_all") (h4 : k ≠ "has_statutory_deadline")
    (h5 : k ≠ "legal_deadline_list") (h6 : k ≠ "contacts")
    (h7 : k ≠ "related_rins") (h8 : k ≠ "unfunded_mandate_list")
    (h9 : k ≠ "govt_level_list") (h10 : k ≠ "small_entity_list")
    (h11 : k ≠ "legal_authority_list") (h12 : k ≠ "cfr_list")
    (hagency : lookupKV (extractAgencyBlockC el "agency") k = none)
    (hparent : lookupKV (extractAgencyBlockC el "parent_agency") k = none)
    (h14 : k ≠ "source_xml") (h15 : k ≠ "pub_season") :
    ∀ rec, iterRinRecord fuzzy xmlBase el = some rec →
      lookupKV rec k =
        lookupKV (pubIdStep xmlBase
          (dictUpdate [("rin", rinOfEl el)] (extractPublicationC el))) k := by
  intro rec hrec
  unfold iterRinRecord at hrec
  split at hrec
  · cases hrec
  · injection hrec with hb
    subst hb
    rw [lookupKV_dictUpdate_none _ _ _ hscl,
      lookupKV_dictSet_ne _ _ _ _ h1, lookupKV_dictSet_ne _ _ _ _ h2,
      lookupKV_dictSet_ne _ _ _ _ h3, lookupKV_dictSet_ne _ _ _ _ h4,
      lookupKV_dictSet_ne _ _ _ _ h5, lookupKV_dictSet_ne _ _ _ _ h6,
      lookupKV_dictSet_ne _ _ _ _ h7, lookupKV_dictSet_ne _ _ _ _ h8,
      lookupKV_dictSet_ne _ _ _ _ h9, lookupKV_dictSet_ne _ _ _ _ h10,
      lookupKV_dictSet_ne _ _ _ _ h11, lookupKV_dictSet_ne _ _ _ _ h12,
      lookupKV_dictUpdate_none _ _ _ hparent,
      lookupKV_dictUpdate_none _ _ _ hagency,
      lookupKV_dictSet_ne _ _ _ _ h14,
      lookup_seasonStep_ne _ _ h15]

/-! ### C3: identity filtering -/

/-- C3 (amended): in the combined compiler (`iter_rin_records`) an entity
yields a record iff the trimmed text of its first RIN descendant is
non-empty, empty-identity entities are silently skipped, and the yielded
record carries that trimmed identity in its `rin` field (when no stray
scalar leaf also canonicalizes to the key `rin`).  The single-XML flattener
(`build_ua_csv_from_xml`), by contrast, yields one record for EVERY entity
element, including those with a missing or empty RIN: its record's RIN field
is the possibly-empty trimmed RIN child text, so its callers do see records
lacking identity. -/
theorem c3_amended_identity_filter :
    (∀ (fuzzy : String → Option String) (xmlBase : String) (el : XNode),
      (iterRinRecord fuzzy xmlBase el = none ↔ rinOfEl el = "") ∧
      (∀ rec, iterRinRecord fuzzy xmlBase el = some rec →
        lookupKV (collectScalarLeaves el) "rin" = none →
        lookupKV rec "rin" = some (rinOfEl el))) ∧
    (∀ doc : XNode,
      (buildRows doc).length = (rinInfoEls doc).length ∧
      ∀ el ∈ rinInfoEls doc, parseRinInfo el ∈ buildRows doc ∧
        lookupKV (parseRinInfo el) "RIN" = some (textChild el "RIN")) := by
  constructor
  · intro fuzzy xmlBase el
    constructor
    · by_cases hr : rinOfEl el = ""
      · simp [iterRinRecord, hr]
      · simp [iterRinRecord, hr]
    · intro rec hrec hscl
      rw [iterRinRecord_lookup_chain fuzzy xmlBase el "rin" hscl
        (by decide) (by decide) (by decide) (by decide) (by decide)
        (by decide) (by decide) (by decide) (by decide) (by decide)
        (by decide) (by decide)
        (lookup_extractAgency_ne el "agency" "rin" (by decide) (by decide)
          (by decide) (by decide) (by decide))
        (lookup_extractAgency_ne el "parent_agency" "rin" (by decide)
          (by decide) (by decide) (by decide) (by decide))
        (by decide) (by decide) rec hrec]
      rw [lookup_pubIdStep_ne _ _ _ (by decide),
        lookupKV_dictUpdate_none _ _ _
          (lookup_extractPublication_ne el "rin" (by decide) (by decide))]
      simp [lookupKV]
  · intro doc
    constructor
    · exact List.length_map _ _
    · intro el hel
      refine ⟨List.mem_map_of_mem _ hel, ?_⟩
      have h := autoCapture_lookup knownGroupsL1 "RIN" el.children
        (parseRinInfoBase el)
      have hbase : lookupKV (parseRinInfoBase el) "RIN" =
          some (textChild el "RIN") := rfl
      show lookupKV (autoCapture knownGroupsL1 (parseRinInfoBase el)
        el.children) "RIN" = some (textChild el "RIN")
      rw [h, hbase]
      rfl

/-- Counterexample to C3 as stated: the single-XML flattener yields a record
for an entity that has no RIN child at all; the caller-visible row carries
the empty identity. -/
theorem c3_counterexample :
    (buildRows fixDoc).map (fun r => lookupKV r "RIN") = [some ""] := by
  decide

/-- Witness for C3. -/
theorem c3_amended_identity_filter_witness :
    iterRinRecord (fun _ => none) "x.xml" (XNode.elem "RIN_INFO" "" []) =
      none ∧
    lookupKV ((iterRinRecord (fun _ => none) "f.xml" fixRi).getD []) "rin" =
      some "2060-AB12" ∧
    (buildRows fixDoc).length = (rinInfoEls fixDoc).length :=
  ⟨((c3_amended_identity_filter.1 (fun _ => none) "x.xml"
      (XNode.elem "RIN_INFO" "" [])).1).mpr (by decide),
   by
     have h2 := ((c3_amended_identity_filter.1 (fun _ => none) "f.xml"
       fixRi).2) ((iterRinRecord (fun _ => none) "f.xml" fixRi).getD [])
       (by decide) (by decide)
     rw [h2]
     decide,
   (c3_amended_identity_filter.2 fixDoc).1⟩

/-! ### C6: snapshot-id derivation -/

/-- C6 (amended): in the streaming compiler, a yielded record's
`publication_id` equals the embedded PUBLICATION_ID whenever its trimmed
value is non-empty — even when it is not 6-digit-numeric — and otherwise the
filename-derived token (possibly empty); no empty sentinel is guaranteed for
a non-numeric embedded value.  In the directory runner, the issue key
`_pub_ym` equals the digit characters of PUBLICATION_ID when exactly six of
them remain, else the filename-derived token, which is empty or of length
six. -/
theorem c6_amended_snapshot_id :
    (∀ (fuzzy : String → Option String) (xmlBase : String) (el : XNode)
      (rec : List (String × String)),
      iterRinRecord fuzzy xmlBase el = some rec →
      lookupKV (collectScalarLeaves el) "publication_id" = none →
      lookupKV rec "publication_id" =
        some (if embPubIdOf el = "" then toPubYmFromFile xmlBase
              else embPubIdOf el)) ∧
    (∀ pid src : String,
      (runnerPubYm pid src = digitsOnly pid ∧
        (digitsOnly pid).data.length = 6) ∨
      (runnerPubYm pid src = runnerFileYm src ∧
        (digitsOnly pid).data.length ≠ 6)) ∧
    (∀ src : String, runnerFileYm src ≠ "" →
      (runnerFileYm src).data.length = 6) := by
  refine ⟨?_, ?_, ?_⟩
  · intro fuzzy xmlBase el rec hrec hscl
    rw [iterRinRecord_lookup_chain fuzzy xmlBase el "publication_id" hscl
      (by decide) (by decide) (by decide) (by decide) (by decide)
      (by decide) (by decide) (by decide) (by decide) (by decide)
      (by decide) (by decide)
      (lookup_extractAgency_ne el "agency" "publication_id" (by decide)
        (by decide) (by decide) (by decide) (by decide))
      (lookup_extractAgency_ne el "parent_agency" "publication_id"
        (by decide) (by decide) (by decide) (by decide) (by decide))
      (by decide) (by decide) rec hrec]
    unfold pubIdStep
    cases hpub : firstDescEx el "publication" listContainersC with
    | none =>
      have hext : extractPublicationC el = [] := by
        unfold extractPublicationC
        rw [hpub]
      have hemb : embPubIdOf el = "" := by
        unfold embPubIdOf
        rw [hpub]
      have hX : lookupKV (dictUpdate [("rin", rinOfEl el)]
          (extractPublicationC el)) "publication_id" = none := by
        rw [hext]
        simp [dictUpdate, lookupKV]
      rw [hX, hemb]
      show lookupKV (dictSet (dictUpdate [("rin", rinOfEl el)]
        (extractPublicationC el)) "publication_id"
        (toPubYmFromFile xmlBase)) "publication_id" = _
      rw [lookupKV_dictSet_self]
      simp
    | some pub =>
      have hext : extractPublicationC el =
          [("publication_id", optText (firstDescEx pub "publication_id" [])),
           ("publication_title",
             optText (firstDescEx pub "publication_title" []))] := by
        unfold extractPublicationC
        rw [hpub]
      have hemb : embPubIdOf el =
          optText (firstDescEx pub "publication_id" []) := by
        unfold embPubIdOf
        rw [hpub]
      have hX : lookupKV (dictUpdate [("rin", rinOfEl el)]
          (extractPublicationC el)) "publication_id" =
          some (optText (firstDescEx pub "publication_id" [])) := by
        rw [hext]
        show lookupKV (dictSet (dictSet [("rin", rinOfEl el)]
          "publication_id" (optText (firstDescEx pub "publication_id" [])))
          "publication_title"
          (optText (firstDescEx pub "publication_title" [])))
          "publication_id" = _
        rw [lookupKV_dictSet_ne _ _ _ _ (by decide), lookupKV_dictSet_self]
      rw [hX]
      by_cases hv : optText (firstDescEx pub "publication_id" []) = ""
      · rw [hv]
        show lookupKV (dictSet (dictUpdate [("rin", rinOfEl el)]
          (extractPublicationC el)) "publication_id"
          (toPubYmFromFile xmlBase)) "publication_id" = _
        rw [lookupKV_dictSet_self, hemb, hv]
        simp
      · have hfalsy : pyFalsyStrOpt
            (some (optText (firstDescEx pub "publication_id" []))) =
              false := by
          simp [pyFalsyStrOpt, hv]
        rw [hfalsy]
        show lookupKV (dictUpdate [("rin", rinOfEl el)]
          (extractPublicationC el)) "publication_id" = _
        rw [hX, hemb, if_neg hv]
  · intro pid src
    unfold runnerPubYm
    by_cases h : (digitsOnly pid).data.length = 6
    · left
      rw [if_pos h]
      exact ⟨rfl, h⟩
    · right
      rw [if_neg h]
      exact ⟨rfl, h⟩
  · intro src hne
    by_cases h : ((pyLower src).data.length = 27 ∧
        (pyLower src).data.take 17 = "reginfo_rin_data_".data ∧
        allDigits (((pyLower src).data.drop 17).take 6) = true ∧
        (pyLower src).data.drop 23 = ".xml".data)
    · have heval : runnerFileYm src = ⟨(src.data.drop 17).take 6⟩ := by
        unfold runnerFileYm
        rw [if_pos h]
      rw [heval]
      show ((src.data.drop 17).take 6).length = 6
      have hlen : src.data.length = 27 := by
        have h2 := h.1
        rw [show (pyLower src).data = src.data.map lowerC from rfl,
          List.length_map] at h2
        exact h2
      rw [List.length_take, List.length_drop, hlen]
      decide
    · exfalso
      apply hne
      unfold runnerFileYm
      rw [if_neg h]

/-- Counterexample to C6 as stated: (i) a non-empty, non-numeric embedded
PUBLICATION_ID loses to the filename token in the runner, contradicting
"the embedded field's value wins when present and non-empty"; (ii) in the
streaming compiler the same non-numeric embedded value wins outright, so no
empty sentinel results although neither source yields a six-digit token. -/
theorem c6_counterexample :
    runnerPubYm "ABC" "REGINFO_RIN_DATA_199510.xml" = "199510" ∧
    ("199510" : String) ≠ "ABC" ∧
    lookupKV ((iterRinRecord (fun _ => none) "zz.xml" fixElPub).getD [])
      "publication_id" = some "XYZ" ∧
    ("XYZ" : String) ≠ "" := by
  refine ⟨by decide, by decide, by decide, by decide⟩

/-- Witness for C6. -/
theorem c6_amended_snapshot_id_witness :
    lookupKV ((iterRinRecord (fun _ => none) "zz.xml" fixElPub).getD [])
      "publication_id" =
      some (if embPubIdOf fixElPub = "" then toPubYmFromFile "zz.xml"
            else embPubIdOf fixElPub) ∧
    ((runnerPubYm "ABC" "REGINFO_RIN_DATA_199510.xml" = digitsOnly "ABC" ∧
        (digitsOnly "ABC").data.length = 6) ∨
      (runnerPubYm "ABC" "REGINFO_RIN_DATA_199510.xml" =
        runnerFileYm "REGINFO_RIN_DATA_199510.xml" ∧
        (digitsOnly "ABC").data.length ≠ 6)) :=
  ⟨c6_amended_snapshot_id.1 (fun _ => none) "zz.xml" fixElPub
     ((iterRinRecord (fun _ => none) "zz.xml" fixElPub).getD [])
     (by decide) (by decide),
   c6_amended_snapshot_id.2.1 "ABC" "REGINFO_RIN_DATA_199510.xml"⟩



/-! ### Reduction helpers for the reducers -/

theorem eRowLe_refl (x : Nat × ERow) : eRowLe x x := lexLe_refl _

/-- `build_last`'s composite row, once the sorted group's final row and the
`idxmax` row are known. -/
theorem buildLastRow_reduce (cols : List String) (grp : List PRow)
    {lastBf cur : PRow}
    (hlast : (List.insertionSort rowKeyLe grp).getLast? = some lastBf)
    (hcur : firstMaxBy pubIntOf (List.insertionSort rowKeyLe grp) =
      some cur) (c : String) :
    buildLastRow cols grp c =
      (if c = "timetable_all_last_issue" then
        some (fillNaEmpty (cur "timetable_all"))
      else if c = "latest_action_last_issue" then
        some (fillNaEmpty (cur "latest_action_in_issue"))
      else if c = "latest_action_date_last_issue" then
        some (fillNaEmpty (cur "latest_action_date_in_issue"))
      else if c = "last_pub_ym" then cur "publication_id"
      else if c = "source_xml_of_last" then cur "source_xml"
      else if c ∈ cols then
        if !(isNonBf c) then
          (if blankCell (lastBf c) then
            ffillLast (List.insertionSort rowKeyLe grp) c
          else lastBf c)
        else cur c
      else none) := by
  show (match (List.insertionSort rowKeyLe grp).getLast?,
        firstMaxBy pubIntOf (List.insertionSort rowKeyLe grp) with
    | some lastBf, some cur =>
      if c = "timetable_all_last_issue" then
        some (fillNaEmpty (cur "timetable_all"))
      else if c = "latest_action_last_issue" then
        some (fillNaEmpty (cur "latest_action_in_issue"))
      else if c = "latest_action_date_last_issue" then
        some (fillNaEmpty (cur "latest_action_date_in_issue"))
      else if c = "last_pub_ym" then cur "publication_id"
      else if c = "source_xml_of_last" then cur "source_xml"
      else if c ∈ cols then
        if !(isNonBf c) then
          (if blankCell (lastBf c) then
            ffillLast (List.insertionSort rowKeyLe grp) c
          else lastBf c)
        else cur c
      else none
    | _, _ => none) = _
  rw [hlast, hcur]

/-! ### C5: list-valued and latest-event fields come from the current row -/

/-- C5: for every nonempty RIN group inside the requested window, there is a
single in-window, maximal-snapshot row `cur` (pandas `idxmax` of the sorted
group) such that every non-backfillable column of the dataframe — in
particular every list-valued column and the latest-event columns — is copied
verbatim from `cur`, and the five appended `*_last_issue` columns are
likewise derived from `cur` alone; no value of any other snapshot enters
these fields. -/
theorem c5_list_fields_from_current (cols : List String) (dfRows : List PRow)
    (w : Option (String × String)) (rin : String)
    (hne : rinRows rin (windowRows w dfRows) ≠ []) :
    ∃ cur ∈ rinRows rin (windowRows w dfRows),
      (∀ r ∈ rinRows rin (windowRows w dfRows),
        pubIntOf r ≤ pubIntOf cur) ∧
      (∀ s e, w = some (s, e) →
        sLe s (pubIdOf cur) ∧ sLe (pubIdOf cur) e) ∧
      (∀ c, isNonBf c = true → c ∉ lastIssueCols → c ∈ cols →
        buildLastForRin cols dfRows w rin c = cur c) ∧
      buildLastForRin cols dfRows w rin "timetable_all_last_issue" =
        some (fillNaEmpty (cur "timetable_all")) ∧
      buildLastForRin cols dfRows w rin "latest_action_last_issue" =
        some (fillNaEmpty (cur "latest_action_in_issue")) ∧
      buildLastForRin cols dfRows w rin "latest_action_date_last_issue" =
        some (fillNaEmpty (cur "latest_action_date_in_issue")) ∧
      buildLastForRin cols dfRows w rin "last_pub_ym" =
        cur "publication_id" ∧
      buildLastForRin cols dfRows w rin "source_xml_of_last" =
        cur "source_xml" := by
  have hsne : List.insertionSort rowKeyLe
      (rinRows rin (windowRows w dfRows)) ≠ [] :=
    insertionSort_ne_nil _ hne
  have hlast := List.getLast?_eq_getLast _ hsne
  rcases firstMaxBy_spec pubIntOf hsne with ⟨cur, hcur, hmemS, hmaxS⟩
  have hred := buildLastRow_reduce cols (rinRows rin (windowRows w dfRows))
    hlast hcur
  have hfr : ∀ c, buildLastForRin cols dfRows w rin c =
      buildLastRow cols (rinRows rin (windowRows w dfRows)) c :=
    fun _ => rfl
  refine ⟨cur, mem_insertionSort.mp hmemS,
    fun r hr => hmaxS r (mem_insertionSort.mpr hr), ?_, ?_, ?_, ?_, ?_, ?_,
    ?_⟩
  · intro s e hw
    subst hw
    have h1 : cur ∈ windowRows (some (s, e)) dfRows :=
      (List.mem_filter.mp (mem_insertionSort.mp hmemS)).1
    have h2 : cur ∈ dfRows.filter (fun r =>
        decide (sLe s (pubIdOf r)) && decide (sLe (pubIdOf r) e)) := h1
    have h3 := (List.mem_filter.mp h2).2
    simp only [Bool.and_eq_true, decide_eq_true_eq] at h3
    exact h3
  · intro c hnb hnotin hc
    simp only [lastIssueCols, List.mem_cons, List.mem_singleton,
      not_or] at hnotin
    rw [hfr, hred, if_neg hnotin.1, if_neg hnotin.2.1, if_neg hnotin.2.2.1,
      if_neg hnotin.2.2.2.1, if_neg hnotin.2.2.2.2.1, if_pos hc, hnb]
    simp
  · rw [hfr, hred, if_pos rfl]
  · rw [hfr, hred, if_neg (by decide), if_pos rfl]
  · rw [hfr, hred, if_neg (by decide), if_neg (by decide), if_pos rfl]
  · rw [hfr, hred, if_neg (by decide), if_neg (by decide), if_neg (by decide),
      if_pos rfl]
  · rw [hfr, hred, if_neg (by decide), if_neg (by decide), if_neg (by decide),
      if_neg (by decide), if_pos rfl]

/-- Witness for C5: the 199510/201810 fixture restricted to the window
ending at 199512 takes its latest-event fields from the Proposed/1995 row,
never the Final/2018 one. -/
theorem c5_list_fields_from_current_witness :
    rinRows "X" (windowRows (some ("199510", "199512")) fixDf) ≠ [] ∧
    (∃ cur ∈ rinRows "X" (windowRows (some ("199510", "199512")) fixDf),
      (∀ r ∈ rinRows "X" (windowRows (some ("199510", "199512")) fixDf),
        pubIntOf r ≤ pubIntOf cur) ∧
      (∀ s e, (some ("199510", "199512") :
          Option (String × String)) = some (s, e) →
        sLe s (pubIdOf cur) ∧ sLe (pubIdOf cur) e) ∧
      (∀ c, isNonBf c = true → c ∉ lastIssueCols → c ∈ fixCols →
        buildLastForRin fixCols fixDf (some ("199510", "199512")) "X" c =
          cur c) ∧
      buildLastForRin fixCols fixDf (some ("199510", "199512")) "X"
        "timetable_all_last_issue" =
        some (fillNaEmpty (cur "timetable_all")) ∧
      buildLastForRin fixCols fixDf (some ("199510", "199512")) "X"
        "latest_action_last_issue" =
        some (fillNaEmpty (cur "latest_action_in_issue")) ∧
      buildLastForRin fixCols fixDf (some ("199510", "199512")) "X"
        "latest_action_date_last_issue" =
        some (fillNaEmpty (cur "latest_action_date_in_issue")) ∧
      buildLastForRin fixCols fixDf (some ("199510", "199512")) "X"
        "last_pub_ym" = cur "publication_id" ∧
      buildLastForRin fixCols fixDf (some ("199510", "199512")) "X"
        "source_xml_of_last" = cur "source_xml") ∧
    buildLastForRin fixCols fixDf (some ("199510", "199512")) "X"
      "latest_action_in_issue" = some "Proposed" ∧
    buildLastForRin fixCols fixDf (some ("199510", "199512")) "X"
      "latest_action_last_issue" = some "Proposed" :=
  ⟨by
     intro h
     rw [show rinRows "X" (windowRows (some ("199510", "199512")) fixDf) =
       [fixRow95] from rfl] at h
     exact List.noConfusion h,
   c5_list_fields_from_current fixCols fixDf (some ("199510", "199512")) "X"
     (by
       intro h
       rw [show rinRows "X" (windowRows (some ("199510", "199512")) fixDf) =
         [fixRow95] from rfl] at h
       exact List.noConfusion h),
   by decide, by decide⟩

/-! ### C7: the EO_13771_DESIGNATION backfill of the runner -/

/-- C7: for every RIN group of the runner's combined frame, the last-per-RIN
reduction picks the maximal-`_pub_int` row (first scan hit); when its
EO_13771_DESIGNATION is blank after trimming and some strictly earlier
snapshot row of the group is non-blank, the output's EO value is the one of
the latest such row (maximal under the `(_pub_int, _row_ordinal)` order, so
ties break by row order), all other fields of the output row are the last
row's own, and exactly one audit log row records the RIN, the last row's
snapshot id and filename, the filled value and the source row's snapshot ym
and filename; when the last row's EO value is already non-blank, or no
earlier non-blank row exists, the row passes through unchanged and no log
row is produced. -/
theorem c7_eo_backfill (rows : List ERow) (rin : String)
    (hne : rows.enum.filter (fun p => p.2.rin == rin) ≠ []) :
    ∃ lastP ∈ List.insertionSort eRowLe
        (rows.enum.filter (fun p => p.2.rin == rin)),
      firstMaxBy (fun p => ePubInt p.2) (List.insertionSort eRowLe
        (rows.enum.filter (fun p => p.2.rin == rin))) = some lastP ∧
      (∀ q ∈ rows.enum.filter (fun p => p.2.rin == rin),
        ePubInt q.2 ≤ ePubInt lastP.2) ∧
      (pyStrip lastP.2.eo ≠ "" →
        eoLastForRin rows rin = (some lastP.2, none)) ∧
      (pyStrip lastP.2.eo = "" →
        ((List.insertionSort eRowLe
            (rows.enum.filter (fun p => p.2.rin == rin))).filter
            (fun p => !(pyStrip p.2.eo == "") &&
              decide (ePubInt p.2 < ePubInt lastP.2)) = [] →
          eoLastForRin rows rin = (some lastP.2, none)) ∧
        (∀ pP, ((List.insertionSort eRowLe
            (rows.enum.filter (fun p => p.2.rin == rin))).filter
            (fun p => !(pyStrip p.2.eo == "") &&
              decide (ePubInt p.2 < ePubInt lastP.2))).getLast? = some pP →
          pyStrip pP.2.eo ≠ "" ∧ ePubInt pP.2 < ePubInt lastP.2 ∧
          (∀ q ∈ rows.enum.filter (fun p => p.2.rin == rin),
            pyStrip q.2.eo ≠ "" → ePubInt q.2 < ePubInt lastP.2 →
              eRowLe q pP) ∧
          eoLastForRin rows rin =
            (some { lastP.2 with eo := pP.2.eo },
             some { rin := rin, lastPubId := lastP.2.pubIdRaw,
                    lastSrc := lastP.2.src, filled := pP.2.eo,
                    fromYm := ePubYm pP.2, fromSrc := pP.2.src }))) := by
  have hsne : List.insertionSort eRowLe
      (rows.enum.filter (fun p => p.2.rin == rin)) ≠ [] :=
    insertionSort_ne_nil _ hne
  rcases firstMaxBy_spec (fun p => ePubInt p.2) hsne with
    ⟨lastP, hfm, hmemS, hmaxS⟩
  have hred : eoLastForRin rows rin =
      (if pyStrip lastP.2.eo == "" then
        match ((List.insertionSort eRowLe
            (rows.enum.filter (fun p => p.2.rin == rin))).filter
            (fun p => !(pyStrip p.2.eo == "") &&
              decide (ePubInt p.2 < ePubInt lastP.2))).getLast? with
        | some pP =>
          (some { lastP.2 with eo := pP.2.eo },
           some { rin := rin, lastPubId := lastP.2.pubIdRaw,
                  lastSrc := lastP.2.src, filled := pP.2.eo,
                  fromYm := ePubYm pP.2, fromSrc := pP.2.src })
        | none => (some lastP.2, none)
      else (some lastP.2, none)) := by
    unfold eoLastForRin
    rw [hfm]
  refine ⟨lastP, hmemS, hfm,
    fun q hq => hmaxS q (mem_insertionSort.mpr hq), ?_, ?_⟩
  · intro hnb
    rw [hred, if_neg (by simp [hnb])]
  · intro hb
    constructor
    · intro hpe
      rw [hred, if_pos (by simp [hb]), hpe]
      rfl
    · intro pP hpl
      have hpmem := List.mem_of_mem_getLast? hpl
      have hpred := (List.mem_filter.mp hpmem).2
      simp only [Bool.and_eq_true, Bool.not_eq_true', beq_eq_false_iff_ne,
        ne_eq, decide_eq_true_eq] at hpred
      refine ⟨hpred.1, hpred.2, ?_, ?_⟩
      · intro q hq hqnb hqlt
        have hqs : q ∈ (List.insertionSort eRowLe
            (rows.enum.filter (fun p => p.2.rin == rin))).filter
            (fun p => !(pyStrip p.2.eo == "") &&
              decide (ePubInt p.2 < ePubInt lastP.2)) := by
          refine List.mem_filter.mpr ⟨mem_insertionSort.mpr hq, ?_⟩
          simp only [Bool.and_eq_true, Bool.not_eq_true',
            beq_eq_false_iff_ne, ne_eq, decide_eq_true_eq]
          exact ⟨hqnb, hqlt⟩
        exact sorted_rel_getLast? eRowLe_refl
          (List.Sorted.filter _ (List.sorted_insertionSort eRowLe _))
          hpl q hqs
      · rw [hred, if_pos (by simp [hb]), hpl]

/-- Witness for C7: a blank 201810 designation is filled from the non-blank
199510 one and the fill is logged with full provenance. -/
theorem c7_eo_backfill_witness :
    [fixEoA, fixEoB].enum.filter (fun p => p.2.rin == "X") ≠ [] ∧
    (∃ lastP ∈ List.insertionSort eRowLe
        ([fixEoA, fixEoB].enum.filter (fun p => p.2.rin == "X")),
      firstMaxBy (fun p => ePubInt p.2) (List.insertionSort eRowLe
        ([fixEoA, fixEoB].enum.filter (fun p => p.2.rin == "X"))) =
        some lastP ∧
      (∀ q ∈ [fixEoA, fixEoB].enum.filter (fun p => p.2.rin == "X"),
        ePubInt q.2 ≤ ePubInt lastP.2) ∧
      (pyStrip lastP.2.eo ≠ "" →
        eoLastForRin [fixEoA, fixEoB] "X" = (some lastP.2, none)) ∧
      (pyStrip lastP.2.eo = "" →
        ((List.insertionSort eRowLe
            ([fixEoA, fixEoB].enum.filter (fun p => p.2.rin == "X"))).filter
            (fun p => !(pyStrip p.2.eo == "") &&
              decide (ePubInt p.2 < ePubInt lastP.2)) = [] →
          eoLastForRin [fixEoA, fixEoB] "X" = (some lastP.2, none)) ∧
        (∀ pP, ((List.insertionSort eRowLe
            ([fixEoA, fixEoB].enum.filter (fun p =>
              p.2.rin == "X"))).filter
            (fun p => !(pyStrip p.2.eo == "") &&
              decide (ePubInt p.2 < ePubInt lastP.2))).getLast? = some pP →
          pyStrip pP.2.eo ≠ "" ∧ ePubInt pP.2 < ePubInt lastP.2 ∧
          (∀ q ∈ [fixEoA, fixEoB].enum.filter (fun p => p.2.rin == "X"),
            pyStrip q.2.eo ≠ "" → ePubInt q.2 < ePubInt lastP.2 →
              eRowLe q pP) ∧
          eoLastForRin [fixEoA, fixEoB] "X" =
            (some { lastP.2 with eo := pP.2.eo },
             some { rin := "X", lastPubId := lastP.2.pubIdRaw,
                    lastSrc := lastP.2.src, filled := pP.2.eo,
                    fromYm := ePubYm pP.2, fromSrc := pP.2.src })))) ∧
    ((eoLastForRin [fixEoA, fixEoB] "X").1.map ERow.eo = some "exempt" ∧
     (eoLastForRin [fixEoA, fixEoB] "X").2.map EOLog.filled =
       some "exempt" ∧
     (eoLastForRin [fixEoA, fixEoB] "X").2.map EOLog.fromYm =
       some "199510" ∧
     (eoLastForRin [fixEoA, fixEoB] "X").2.map EOLog.fromSrc =
       some "REGINFO_RIN_DATA_199510.xml") :=
  ⟨by
     intro h
     rw [show [fixEoA, fixEoB].enum.filter (fun p => p.2.rin == "X") =
       [(0, fixEoA), (1, fixEoB)] from rfl] at h
     exact List.noConfusion h,
   c7_eo_backfill [fixEoA, fixEoB] "X"
     (by
       intro h
       rw [show [fixEoA, fixEoB].enum.filter (fun p => p.2.rin == "X") =
         [(0, fixEoA), (1, fixEoB)] from rfl] at h
       exact List.noConfusion h),
   rfl, rfl, rfl, rfl⟩

/-! ### C1: the cross-snapshot scalar backfill is inert -/

/-- C1: the claimed cross-snapshot scalar backfill does not happen.  On the
claim's own example — snapshot 199510 with `agency_name` EPA and snapshot
201810 with `agency_name` empty — `build_last` outputs the empty string,
not EPA: the blank test sends the column to `ffill().iloc[-1]`, but pandas
`ffill` only replaces NaN cells, never empty strings, so the forward-filled
column still ends in the current row's own empty value.  A NaN cell (the
`designation` column, absent from the 201810 row) is not even treated as
blank, because `str(nan)` is `"nan"`, and passes through as NaN. -/
theorem c1_backfill_inert :
    fixRow95 "agency_name" = some "EPA" ∧
    fixRow18 "agency_name" = some "" ∧
    buildLastForRin fixCols fixDf none "X" "agency_name" = some "" ∧
    buildLastForRin fixCols fixDf none "X" "designation" = none := by
  refine ⟨by decide, by decide, by decide, by decide⟩


end UA
